import Mathlib

/-!
Verification of `ha/bin/electionhistory.py`, a batch log-analysis tool that
reconstructs master-election history from cluster logs.

Log lines and python strings are modelled as `List Char`.  Python's `re`
patterns used by the script (all of the shape `.*LIT(\d+)LIT.*` with greedy
quantifiers and unanchored tails) are modelled by a small backtracking
matcher with Python's leftmost-greedy priority.  `datetime.strptime` with the
fixed format `%Y-%m-%d %H:%M:%S.%f` is modelled following CPython's
`_strptime` field patterns, including field widths and calendar validation.
Exceptions (`ValueError` from `int`/`strptime`, `NameError` from reading an
unassigned local) are modelled with `Except`.
-/

namespace ElectionHistory

/-- Python strings (and log lines) are lists of characters.  Lines carry
their trailing newline, as produced by Python file iteration. -/
abbrev Str := List Char

/-- Numeric value of a string of decimal digits (as `int` on a `\d+` group). -/
def natOfDigits (s : Str) : Nat :=
  s.foldl (fun a c => 10 * a + (c.toNat - 48)) 0

/-- Characters stripped by Python's `int(str)` before parsing. -/
def pySpace (c : Char) : Bool :=
  c = ' ' || c = '\t' || c = '\n' || c = '\r' || c = '\x0b' || c = '\x0c'

/-- Python `int(s)`: optional surrounding whitespace, optional sign, at least
one decimal digit.  `none` models the raised `ValueError`. -/
def pyInt (s : Str) : Option Int :=
  let t := ((s.dropWhile pySpace).reverse.dropWhile pySpace).reverse
  match t with
  | '+' :: ds => if ds ≠ [] ∧ ds.all Char.isDigit then some (natOfDigits ds) else none
  | '-' :: ds => if ds ≠ [] ∧ ds.all Char.isDigit then some (-(natOfDigits ds : Int)) else none
  | ds => if ds ≠ [] ∧ ds.all Char.isDigit then some (natOfDigits ds) else none

/-- Python slice `s[start:stop]` for non-negative clamped indices.  Callers
translate negative indices before calling. -/
def pySliceNN (s : Str) (start stop : Nat) : Str :=
  (s.take stop).drop start

/-- Python `s[-a:-b]` for `0 < b < a`: both indices count from the end and
clamp at `0`. -/
def pySliceNeg (s : Str) (a b : Nat) : Str :=
  pySliceNN s (s.length - a) (s.length - b)

/-- Python `s[:-n]` (drop the last `n` characters, clamping at zero). -/
def pyDropLast (s : Str) (n : Nat) : Str :=
  s.take (s.length - n)

/-- Python `s.endswith(t)`. -/
def pyEndsWith (s t : Str) : Bool :=
  t.isSuffixOf s

/-! ### The regex fragment used by the script

Every pattern compiled by the script is built from literal text, `.`/`.+`/`.*`
(no-newline wildcards) and a single group `(\d+)`, and is used through
`re.match` (anchored at the start, the end left free).  `RTok` is the token
alphabet; `reRun` runs a token list against a string with Python's
leftmost-greedy backtracking priority and returns the text captured by the
`(\d+)` group (or `[]` when the pattern has no group). -/

inductive RTok where
  | lit : Str → RTok
  | one : RTok
  | star : RTok
  | plus : RTok
  | grp : RTok
deriving DecidableEq, Repr

/-- Fuelled matcher body.  Every recursive call strictly decreases
`s.length + ps.length`, so any fuel above that sum computes the matcher's
fixpoint (`reRunF_stable` below); the fuel only makes the recursion
structural so that the kernel can evaluate matches on concrete lines.  On a
match the result is the `(\d+)` group text (`[]` if the pattern has no
group); greedy quantifiers try the longest extension first, which is the
priority order Python's engine commits to. -/
def reRunF : Nat → List RTok → Str → Option Str
  | _, [], _ => some []
  | 0, _ :: _, _ => none
  | fuel + 1, .lit p :: ps, s =>
      if p.isPrefixOf s then reRunF fuel ps (s.drop p.length) else none
  | fuel + 1, .one :: ps, s =>
      match s with
      | [] => none
      | c :: rest => if c = '\n' then none else reRunF fuel ps rest
  | fuel + 1, .star :: ps, [] => reRunF fuel ps []
  | fuel + 1, .star :: ps, c :: rest =>
      if c = '\n' then reRunF fuel ps (c :: rest)
      else
        match reRunF fuel (.star :: ps) rest with
        | some r => some r
        | none => reRunF fuel ps (c :: rest)
  | fuel + 1, .plus :: ps, s =>
      match s with
      | [] => none
      | c :: rest => if c = '\n' then none else reRunF fuel (.star :: ps) rest
  | fuel + 1, .grp :: ps, s =>
      match s with
      | [] => none
      | c :: rest =>
          if c.isDigit then
            match reRunF fuel (.grp :: ps) rest with
            | some cap => some (c :: cap)
            | none =>
                match reRunF fuel ps rest with
                | some _ => some [c]
                | none => none
          else none

/-- Run a token pattern against a string (with adequate fuel). -/
def reRun (ps : List RTok) (s : Str) : Option Str :=
  reRunF (s.length + ps.length + 1) ps s

/-- `ELECTION_STARTED_REGEX = '.*master-notify set to (\d+).*'`. -/
def electionStartedP : List RTok :=
  [.star, .lit ("master-notify set to ".data), .grp, .star]

/-- `MASTER_REBOUND_REGEX = '.*master-rebound set to (\d+).*'`. -/
def masterReboundP : List RTok :=
  [.star, .lit ("master-rebound set to ".data), .grp, .star]

/-- `STARTING_AS_REGEX = '.*Starting\[(\d+)\] as.*'`. -/
def startingAsP : List RTok :=
  [.star, .lit ("Starting[".data), .grp, .lit ("] as".data), .star]

/-- First (and duplicated second) entry of `OPENED_LOG_REGEXES`:
`'.*Opened .+ clean empty log, version=.+, lastTxId=(\d+).*'`. -/
def openedCleanP : List RTok :=
  [.star, .lit ("Opened ".data), .plus, .lit (" clean empty log, version=".data),
   .plus, .lit (", lastTxId=".data), .grp, .star]

/-- Third entry of `OPENED_LOG_REGEXES` (the unescaped dots of the Python
pattern are wildcards): `'.*Internal recovery completed, scanned .+ log
entries. Recovered .+ transactions. Last tx recovered: (\d+).*'`. -/
def recoveryP : List RTok :=
  [.star, .lit ("Internal recovery completed, scanned ".data), .plus,
   .lit (" log entries".data), .one, .lit (" Recovered ".data), .plus,
   .lit (" transactions".data), .one, .lit (" Last tx recovered: ".data), .grp, .star]

/-- Fourth entry of `OPENED_LOG_REGEXES`:
`'.*Opened logical log .+ version=.+, lastTx=(\d+).*'`. -/
def openedLogicalP : List RTok :=
  [.star, .lit ("Opened logical log ".data), .plus, .lit (" version=".data),
   .plus, .lit (", lastTx=".data), .grp, .star]

/-- `STARTUP_FIRST_TIME_REGEX = '.*newMaster called Starting up for the first time.*'`. -/
def startupFirstTimeP : List RTok :=
  [.star, .lit ("newMaster called Starting up for the first time".data), .star]

/-- `SHUTDOWN_REGEX = '.*Shutdown\[(\d+)\],'` (no trailing wildcard; `re.match`
does not require the end of the string anyway). -/
def shutdownP : List RTok :=
  [.star, .lit ("Shutdown[".data), .grp, .lit ("],".data)]

/-- `BRANCHED_DATA_REGEX = '.*Branched data occurred.*'`. -/
def branchedDataP : List RTok :=
  [.star, .lit ("Branched data occurred".data), .star]

/-- `ZOOCLIENT_INFO_REGEX = '.*ZooClient\[serverId:(\d+).*'`. -/
def zooClientP : List RTok :=
  [.star, .lit ("ZooClient[serverId:".data), .grp, .star]

/-- `ELECTION_STARTED_REGEX.match(line)`, returning the captured group. -/
def electionStartedCapture (l : Str) : Option Str := reRun electionStartedP l

/-- `MASTER_REBOUND_REGEX.match(line)`, returning the captured group. -/
def masterReboundCapture (l : Str) : Option Str := reRun masterReboundP l

/-- `STARTING_AS_REGEX.match(line)`, returning the captured group. -/
def startingAsCapture (l : Str) : Option Str := reRun startingAsP l

/-- `SHUTDOWN_REGEX.match(line)`, returning the captured group. -/
def shutdownCapture (l : Str) : Option Str := reRun shutdownP l

/-- `ZOOCLIENT_INFO_REGEX.match(line)`, returning the captured group. -/
def zooClientCapture (l : Str) : Option Str := reRun zooClientP l

/-- `STARTUP_FIRST_TIME_REGEX.match(line)` as a boolean. -/
def startupFirstTimeMatch (l : Str) : Bool := (reRun startupFirstTimeP l).isSome

/-- `BRANCHED_DATA_REGEX.match(line)` as a boolean. -/
def branchedDataMatch (l : Str) : Bool := (reRun branchedDataP l).isSome

/-- The tuple `OPENED_LOG_REGEXES` in source order (the first entry is
literally duplicated in the source). -/
def openedLogPatterns : List (List RTok) :=
  [openedCleanP, openedCleanP, recoveryP, openedLogicalP]

/-- First matching pattern of `OPENED_LOG_REGEXES` wins, returning its
captured group. -/
def openedLogCapture (l : Str) : Option Str :=
  match reRun openedCleanP l with
  | some d => some d
  | none =>
    match reRun openedCleanP l with
    | some d => some d
    | none =>
      match reRun recoveryP l with
      | some d => some d
      | none => reRun openedLogicalP l

/-! ### `datetime.strptime` with the fixed format `"%Y-%m-%d %H:%M:%S.%f"`

CPython's `_strptime` compiles the format into a regex whose field patterns
are `%Y ↦ \d\d\d\d`, `%m ↦ 1[0-2]|0[1-9]|[1-9]`,
`%d ↦ 3[01]|[12]\d|0[1-9]|[1-9]| [1-9]`, `%H ↦ 2[0-3]|[0-1]\d|\d`,
`%M ↦ [0-5]\d|\d`, `%S ↦ 6[0-1]|[0-5]\d|\d`, `%f ↦ [0-9]{1,6}`, requires the
whole string to be consumed, pads the `%f` digits to six (microseconds), and
finally calls the range-checking `datetime` constructor.  Each `…Cands`
function below lists an alternation's possible (value, rest) parses in the
regex's priority order; `firstSome` then realises backtracking. -/

/-- Python exceptions the script can raise: `ValueError` from `int`/
`strptime`, `NameError` from reading a never-assigned local variable. -/
inductive PyErr where
  | valueError : PyErr
  | nameError : PyErr
deriving DecidableEq, Repr

/-- The result of `datetime.strptime`: a naive wall-clock instant. -/
structure DateTime where
  year : Nat
  month : Nat
  day : Nat
  hour : Nat
  minute : Nat
  second : Nat
  microsecond : Nat
deriving DecidableEq, Repr

/-- Value of a decimal digit character. -/
def dval (c : Char) : Nat := c.toNat - 48

/-- Try each element in order, committing to the first for which the
continuation succeeds (regex backtracking order). -/
def firstSome {α β : Type} : List α → (α → Option β) → Option β
  | [], _ => none
  | a :: as, f =>
      match f a with
      | some b => some b
      | none => firstSome as f

/-- Parses of `%Y` (`\d\d\d\d`). -/
def yearCands : Str → List (Nat × Str)
  | a :: b :: c :: d :: r =>
      if a.isDigit && b.isDigit && c.isDigit && d.isDigit then
        [(natOfDigits [a, b, c, d], r)]
      else []
  | _ => []

/-- Parses of `%m` (`1[0-2]|0[1-9]|[1-9]`), in priority order. -/
def monthCands (s : Str) : List (Nat × Str) :=
  (match s with
   | c1 :: c2 :: r =>
       (if c1 = '1' && ('0' ≤ c2 && c2 ≤ '2') then [(10 + dval c2, r)] else []) ++
       (if c1 = '0' && ('1' ≤ c2 && c2 ≤ '9') then [(dval c2, r)] else [])
   | _ => []) ++
  (match s with
   | c1 :: r => if '1' ≤ c1 && c1 ≤ '9' then [(dval c1, r)] else []
   | _ => [])

/-- Parses of `%d` (`3[01]|[12]\d|0[1-9]|[1-9]| [1-9]`), in priority order. -/
def dayCands (s : Str) : List (Nat × Str) :=
  (match s with
   | c1 :: c2 :: r =>
       (if c1 = '3' && ('0' ≤ c2 && c2 ≤ '1') then [(30 + dval c2, r)] else []) ++
       (if ('1' ≤ c1 && c1 ≤ '2') && c2.isDigit then [(10 * dval c1 + dval c2, r)] else []) ++
       (if c1 = '0' && ('1' ≤ c2 && c2 ≤ '9') then [(dval c2, r)] else [])
   | _ => []) ++
  (match s with
   | c1 :: r => if '1' ≤ c1 && c1 ≤ '9' then [(dval c1, r)] else []
   | _ => []) ++
  (match s with
   | c1 :: c2 :: r => if c1 = ' ' && ('1' ≤ c2 && c2 ≤ '9') then [(dval c2, r)] else []
   | _ => [])

/-- Parses of `%H` (`2[0-3]|[0-1]\d|\d`), in priority order. -/
def hourCands (s : Str) : List (Nat × Str) :=
  (match s with
   | c1 :: c2 :: r =>
       (if c1 = '2' && ('0' ≤ c2 && c2 ≤ '3') then [(20 + dval c2, r)] else []) ++
       (if ('0' ≤ c1 && c1 ≤ '1') && c2.isDigit then [(10 * dval c1 + dval c2, r)] else [])
   | _ => []) ++
  (match s with
   | c1 :: r => if c1.isDigit then [(dval c1, r)] else []
   | _ => [])

/-- Parses of `%M` (`[0-5]\d|\d`), in priority order. -/
def minuteCands (s : Str) : List (Nat × Str) :=
  (match s with
   | c1 :: c2 :: r =>
       if ('0' ≤ c1 && c1 ≤ '5') && c2.isDigit then [(10 * dval c1 + dval c2, r)] else []
   | _ => []) ++
  (match s with
   | c1 :: r => if c1.isDigit then [(dval c1, r)] else []
   | _ => [])

/-- Parses of `%S` (`6[0-1]|[0-5]\d|\d`), in priority order. -/
def secondCands (s : Str) : List (Nat × Str) :=
  (match s with
   | c1 :: c2 :: r =>
       (if c1 = '6' && ('0' ≤ c2 && c2 ≤ '1') then [(60 + dval c2, r)] else []) ++
       (if ('0' ≤ c1 && c1 ≤ '5') && c2.isDigit then [(10 * dval c1 + dval c2, r)] else [])
   | _ => []) ++
  (match s with
   | c1 :: r => if c1.isDigit then [(dval c1, r)] else []
   | _ => [])

/-- Parses of `%f` (`[0-9]{1,6}`, greedy, longest first), each already scaled
to microseconds the way `_strptime` zero-pads the digits to six places. -/
def fCands (s : Str) : List (Nat × Str) :=
  let n := ((s.takeWhile Char.isDigit).take 6).length
  (List.range n).map fun i =>
    let k := n - i
    (natOfDigits (s.take k) * 10 ^ (6 - k), s.drop k)

/-- The full-format match of `strptime(raw, "%Y-%m-%d %H:%M:%S.%f")`, before
the `datetime` constructor's range checks; `none` when the regex does not
consume the whole string. -/
def strptimeRaw (s : Str) : Option DateTime :=
  firstSome (yearCands s) fun yc =>
    match yc.2 with
    | '-' :: s2 =>
      firstSome (monthCands s2) fun mc =>
        match mc.2 with
        | '-' :: s4 =>
          firstSome (dayCands s4) fun dc =>
            match dc.2 with
            | ' ' :: s6 =>
              firstSome (hourCands s6) fun hc =>
                match hc.2 with
                | ':' :: s8 =>
                  firstSome (minuteCands s8) fun nc =>
                    match nc.2 with
                    | ':' :: s10 =>
                      firstSome (secondCands s10) fun sc =>
                        match sc.2 with
                        | '.' :: s12 =>
                          firstSome (fCands s12) fun fc =>
                            match fc.2 with
                            | [] => some ⟨yc.1, mc.1, dc.1, hc.1, nc.1, sc.1, fc.1⟩
                            | _ => none
                        | _ => none
                    | _ => none
                | _ => none
            | _ => none
        | _ => none
    | _ => none

/-- Gregorian leap-year rule, as `calendar.isleap`/`datetime`. -/
def isLeapYear (y : Nat) : Bool :=
  y % 4 = 0 && (y % 100 ≠ 0 || y % 400 = 0)

/-- Number of days of a month, as validated by the `datetime` constructor. -/
def daysInMonth (y m : Nat) : Nat :=
  if m = 2 then (if isLeapYear y then 29 else 28)
  else if m = 4 || m = 6 || m = 9 || m = 11 then 30
  else 31

/-- Range checks of the `datetime` constructor. -/
def dtValid (d : DateTime) : Bool :=
  1 ≤ d.year && d.year ≤ 9999 && 1 ≤ d.month && d.month ≤ 12 &&
  1 ≤ d.day && d.day ≤ daysInMonth d.year d.month &&
  d.hour ≤ 23 && d.minute ≤ 59 && d.second ≤ 59 && d.microsecond ≤ 999999

/-- The composite `datetime.strptime(raw, "%Y-%m-%d %H:%M:%S.%f")`: format
match, then constructor range checks; failure raises `ValueError`. -/
def strptime (s : Str) : Except PyErr DateTime :=
  match strptimeRaw s with
  | none => .error .valueError
  | some d => if dtValid d then .ok d else .error .valueError

/-- Length of the sample prefix `"2012-05-30 09:28:56.233-0700"` the source
slices off (28 characters). -/
def tsPrefixLen : Nat := ("2012-05-30 09:28:56.233-0700".data).length

/-- The source's `parse_timestamp`: slice the fixed-width prefix, parse (and
discard) the timezone hour slice `raw[-5:-2]` with `int`, then parse the
offset-free prefix `raw[:-5]` with the fixed `strptime` format.  The offset
is never applied to the parsed instant. -/
def parse_timestamp (l : Str) : Except PyErr DateTime :=
  let raw := l.take tsPrefixLen
  match pyInt (pySliceNeg raw 5 2) with
  | none => .error .valueError
  | some _ => strptime (pyDropLast raw 5)

/-! ### Ordering and rendering of `datetime` values -/

/-- Comparison key: Python compares `datetime`s lexicographically on their
fields. -/
def DateTime.key (d : DateTime) : List Nat :=
  [d.year, d.month, d.day, d.hour, d.minute, d.second, d.microsecond]

/-- Strict lexicographic order on equal-length `Nat` lists. -/
def natListLt : List Nat → List Nat → Bool
  | [], [] => false
  | [], _ :: _ => true
  | _ :: _, [] => false
  | a :: as, b :: bs => if a < b then true else if b < a then false else natListLt as bs

/-- Python `datetime.__lt__`. -/
def dtLt (a b : DateTime) : Bool := natListLt a.key b.key

/-- Python `datetime.__le__` (total order: `a ≤ b ↔ ¬ b < a`). -/
def dtLe (a b : DateTime) : Bool := !natListLt b.key a.key

/-- Python `"%0Nd" % n` for non-negative `n`. -/
def pyPad (w n : Nat) : Str :=
  let ds := (Nat.repr n).data
  List.replicate (w - ds.length) '0' ++ ds

/-- Python `str(datetime)` (`isoformat` with a space separator): fractional
seconds are printed as six digits, and omitted entirely when zero. -/
def dtStr (d : DateTime) : Str :=
  pyPad 4 d.year ++ ('-' :: pyPad 2 d.month) ++ ('-' :: pyPad 2 d.day) ++
  (' ' :: pyPad 2 d.hour) ++ (':' :: pyPad 2 d.minute) ++ (':' :: pyPad 2 d.second) ++
  (if d.microsecond = 0 then [] else '.' :: pyPad 6 d.microsecond)

/-- Python `str(int)`. -/
def intStr (i : Int) : Str := (toString i).data

/-! ### Data model -/

/-- The module constant `MASTER = "master"`. -/
def MASTER : Str := ("master").data

/-- The module constant `SLAVE = "slave"`. -/
def SLAVE : Str := ("slave").data

/-- The source's `ServerTypeSwitch` (a role transition): timestamp, server id
(the captured digit string), mode (one of the `MASTER`/`SLAVE` string
constants) and the last committed tx id in force at the switch. -/
structure ServerTypeSwitch where
  timestamp : DateTime
  server_id : Str
  mode : Str
  tx_id : Int
deriving DecidableEq, Repr

/-- The source's `ElectionCycle`: start timestamp, initiating server id, and
the attached type switches in attachment order. -/
structure ElectionCycle where
  timestamp : DateTime
  started_by : Str
  type_switches : List ServerTypeSwitch
deriving DecidableEq, Repr

/-- `ServerTypeSwitch.__str__`: `"%s   %s became %s Last TX: %s"`, with
`"slave"` padded by one blank to align with `"master"`. -/
def serverTypeSwitchStr (sw : ServerTypeSwitch) : Str :=
  dtStr sw.timestamp ++ ("   ").data ++ sw.server_id ++ (" became ").data ++
  (if sw.mode = MASTER then MASTER else SLAVE ++ (" ").data) ++
  (" Last TX: ").data ++ intStr sw.tx_id

/-- The sentinel `ServerTypeSwitch(0, -1, SLAVE, -1)` seeding the max-tx
tracking in `get_log_messages`.  In Python its timestamp and server id are
the integers `0` and `-1`; the timestamp is never read, and the server id is
only ever rendered through `"%s"`, so we model them as a zero date and the
string `"-1"`. -/
def maxTxInit : ServerTypeSwitch :=
  ⟨⟨0, 0, 0, 0, 0, 0, 0⟩, ("-1").data, SLAVE, -1⟩

/-- Warning suffix appended by `get_log_messages` when a server becomes
master while another server has a higher tx id. -/
def warnStr (maxSw sw : ServerTypeSwitch) : Str :=
  ("   WARN: Master is ").data ++ intStr (maxSw.tx_id - sw.tx_id) ++
  (" transactions behind server ").data ++ maxSw.server_id

/-- Loop body of `ElectionCycle.get_log_messages` over the sorted switches,
threading the running max-tx switch and the previous tx id.  The in-place
`out[len(out)-1] +=` of the source is modelled by composing the suffix onto
the line before it is emitted. -/
def cycleLoop : List ServerTypeSwitch → ServerTypeSwitch → Int → List Str
  | [], _, _ => []
  | sw :: rest, maxSw, prev =>
      let delta := sw.tx_id - prev
      let deltaStr := if 0 ≤ delta then '+' :: intStr delta else intStr delta
      let base := serverTypeSwitchStr sw ++ (" (").data ++ deltaStr ++ (")").data
      let maxSw2 := if maxSw.tx_id < sw.tx_id then sw else maxSw
      let line := if sw.mode = MASTER ∧ sw.tx_id < maxSw2.tx_id then base ++ warnStr maxSw2 sw else base
      line :: cycleLoop rest maxSw2 sw.tx_id

/-- Sort key relation of `sorted(self.type_switches, key=...timestamp)`. -/
def swLe (a b : ServerTypeSwitch) : Prop := dtLe a.timestamp b.timestamp = true

instance : DecidableRel swLe := fun a b => inferInstanceAs (Decidable (_ = true))

/-- Header line of a cycle: `"%s Election started by %s"`. -/
def headerStr (c : ElectionCycle) : Str :=
  dtStr c.timestamp ++ (" Election started by ").data ++ c.started_by

/-- `ElectionCycle.get_log_messages`.  Python's `sorted` is a stable sort by
the timestamp key), which insertion sort realises. -/
def get_log_messages (c : ElectionCycle) : List Str :=
  headerStr c :: cycleLoop (List.insertionSort swLe c.type_switches) maxTxInit 0

/-! ### The scanning passes of `main` -/

/-- `find_election_cycles`: one `ElectionCycle` per line matched by
`ELECTION_STARTED_REGEX`, carrying the line's timestamp and the captured
server id; a timestamp parse failure propagates. -/
def find_election_cycles : List Str → Except PyErr (List ElectionCycle)
  | [] => .ok []
  | l :: rest =>
      match electionStartedCapture l with
      | none => find_election_cycles rest
      | some d =>
          match parse_timestamp l with
          | .error e => .error e
          | .ok ts =>
              match find_election_cycles rest with
              | .error e => .error e
              | .ok cs => .ok (⟨ts, d, []⟩ :: cs)

/-- `find_last_committed_tx`: consume lines until one matches an
`OPENED_LOG_REGEXES` pattern and return its tx id with the remaining lines;
return the sentinel `-1` after exhausting the stream. -/
def find_last_committed_tx : List Str → Int × List Str
  | [] => (-1, [])
  | l :: rest =>
      match openedLogCapture l with
      | some d => ((natOfDigits d : Nat), rest)
      | none => find_last_committed_tx rest

/-- `find_next_type_switch`: consume lines until one matches
`STARTING_AS_REGEX`; on a match the local `mode` is assigned only by the two
`endswith` tests, so a matched line with neither suffix raises `NameError`
when `mode` is read (after `parse_timestamp`, whose failure wins). -/
def find_next_type_switch : List Str → Int → Except PyErr (Option (ServerTypeSwitch × List Str))
  | [], _ => .ok none
  | l :: rest, tx =>
      match startingAsCapture l with
      | none => find_next_type_switch rest tx
      | some d =>
          let mode : Option Str :=
            if pyEndsWith l (("as master\n").data) then some MASTER
            else if pyEndsWith l (("as slave\n").data) then some SLAVE
            else none
          match parse_timestamp l with
          | .error e => .error e
          | .ok ts =>
              match mode with
              | none => .error .nameError
              | some m => .ok (some (⟨ts, d, m, tx⟩, rest))

/-- The second pass of `main` over one file: the outer `for line in loglines`
pops one line per iteration off the shared iterator (without examining it),
then the two scans run on the same iterator, and a produced switch is
attached to the first cycle (in list order) whose start precedes it. -/
def attachOne : List ElectionCycle → ServerTypeSwitch → List ElectionCycle
  | [], _ => []
  | c :: cs, sw =>
      if dtLt c.timestamp sw.timestamp then
        { c with type_switches := c.type_switches ++ [sw] } :: cs
      else c :: attachOne cs sw

def pass2FileF : Nat → List Str → List ElectionCycle → Except PyErr (List ElectionCycle)
  | _, [], cs => .ok cs
  | 0, _ :: _, cs => .ok cs
  | fuel + 1, _ :: rest, cs =>
      let p := find_last_committed_tx rest
      match find_next_type_switch p.2 p.1 with
      | .error e => .error e
      | .ok none => .ok cs
      | .ok (some (sw, rest2)) => pass2FileF fuel rest2 (attachOne cs sw)

/-- One file of `main`'s second pass (adequate fuel; each loop iteration
consumes at least one line). -/
def pass2File (l : List Str) (cs : List ElectionCycle) : Except PyErr (List ElectionCycle) :=
  pass2FileF (l.length + 1) l cs

def correlateF : Nat → List Str → Except PyErr (List ServerTypeSwitch)
  | _, [] => .ok []
  | 0, _ :: _ => .ok []
  | fuel + 1, _ :: rest =>
      let p := find_last_committed_tx rest
      match find_next_type_switch p.2 p.1 with
      | .error e => .error e
      | .ok none => .ok []
      | .ok (some (sw, rest2)) =>
          match correlateF fuel rest2 with
          | .error e => .error e
          | .ok sws => .ok (sw :: sws)

/-- The switches the second pass extracts from one file, in extraction
order (the same scan as `pass2File`, with the attachments dropped). -/
def correlate (l : List Str) : Except PyErr (List ServerTypeSwitch) :=
  correlateF (l.length + 1) l

/-- The general-events scan of `main`'s first pass: threads the ambient
`current_server_id` (initially `"Unknown server"`) and emits one formatted
message per matched standalone event, testing the patterns in source
order. -/
def generalEvents : List Str → Str → Except PyErr (List Str)
  | [], _ => .ok []
  | l :: rest, cur =>
      match zooClientCapture l with
      | some d => generalEvents rest d
      | none =>
      match masterReboundCapture l with
      | some d =>
          match parse_timestamp l with
          | .error e => .error e
          | .ok ts =>
              match generalEvents rest cur with
              | .error e => .error e
              | .ok ms => .ok ((dtStr ts ++ ("     [Master rebound: ").data ++ d ++ ("]").data) :: ms)
      | none =>
      if startupFirstTimeMatch l then
        match parse_timestamp l with
        | .error e => .error e
        | .ok ts =>
            match generalEvents rest cur with
            | .error e => .error e
            | .ok ms => .ok ((dtStr ts ++ ("     [Startup: ").data ++ cur ++ ("]").data) :: ms)
      else
      match shutdownCapture l with
      | some d =>
          match parse_timestamp l with
          | .error e => .error e
          | .ok ts =>
              match generalEvents rest cur with
              | .error e => .error e
              | .ok ms => .ok ((dtStr ts ++ ("     [Shutdown: ").data ++ d ++ ("]").data) :: ms)
      | none =>
      if branchedDataMatch l then
        match parse_timestamp l with
        | .error e => .error e
        | .ok ts =>
            match generalEvents rest cur with
            | .error e => .error e
            | .ok ms => .ok ((dtStr ts ++ ("     [").data ++ pySliceNN l 30 (l.length - 1) ++ ("]").data) :: ms)
      else generalEvents rest cur

/-- First pass of `main` over all files: per file, collect the election
cycles, then (after the `seek(0)`) the standalone event messages. -/
def pass1 : List (List Str) → Except PyErr (List ElectionCycle × List Str)
  | [] => .ok ([], [])
  | f :: fs =>
      match find_election_cycles f with
      | .error e => .error e
      | .ok cs =>
          match generalEvents f (("Unknown server").data) with
          | .error e => .error e
          | .ok ms =>
              match pass1 fs with
              | .error e => .error e
              | .ok (cs2, ms2) => .ok (cs ++ cs2, ms ++ ms2)

/-- Second pass of `main` over all files. -/
def pass2All : List (List Str) → List ElectionCycle → Except PyErr (List ElectionCycle)
  | [], cs => .ok cs
  | f :: fs, cs =>
      match pass2File f cs with
      | .error e => .error e
      | .ok cs2 => pass2All fs cs2

/-- Sort key relation of `election_cycles.sort(key=...timestamp)`. -/
def cycLe (a b : ElectionCycle) : Prop := dtLe a.timestamp b.timestamp = true

instance : DecidableRel cycLe := fun a b => inferInstanceAs (Decidable (_ = true))

/-- Descending start-timestamp order, the order in which `main` holds the
cycle list after `sort` and `reverse`. -/
def cycGe (a b : ElectionCycle) : Prop := cycLe b a

instance : DecidableRel cycGe := fun a b => inferInstanceAs (Decidable (_ = true))

/-- Python string comparison (`output_messages.sort()`): strict lexicographic
order on the character codes. -/
def strLtB (a b : Str) : Bool :=
  natListLt (a.map Char.toNat) (b.map Char.toNat)

/-- The corresponding total order `a ≤ b ↔ ¬ b < a` used for the final sort. -/
def strLe (a b : Str) : Prop := strLtB b a = false

instance : DecidableRel strLe := fun a b => inferInstanceAs (Decidable (_ = false))

/-- Python `"\n".join`. -/
def joinNL : List Str → Str
  | [] => []
  | [m] => m
  | m :: m2 :: rest => m ++ '\n' :: joinNL (m2 :: rest)

/-- The usage text printed when fewer than two `argv` entries are present. -/
def usageMsg : Str :=
  ("Usage: electionhistory MESSAGES_LOG_LOCATION [MESSAGES_LOG_LOCATION ..]\n\nBash lets you use patterns to match multiple logs, for instance:\nelectionhistory mylogs*/messages.log").data

/-- Message printed (before returning) when no election cycles were found. -/
def noCyclesMsg : Str := ("No election cycles found.").data

/-- The source's `main`, with each input file modelled by its list of lines
and each `print` statement by one emitted string.  With no file arguments the
usage text is printed but execution continues; with no election cycles the
`"No election cycles found."` message is printed and `main` returns before
the second pass; otherwise the pooled messages are sorted lexicographically
and printed joined by newlines. -/
def mainOutput (files : List (List Str)) : Except PyErr (List Str) :=
  let usage := if files.length = 0 then [usageMsg] else []
  match pass1 files with
  | .error e => .error e
  | .ok (cycles, msgs) =>
      let sortedCycles := (List.insertionSort cycLe cycles).reverse
      if sortedCycles.length = 0 then .ok (usage ++ [noCyclesMsg])
      else
        match pass2All files sortedCycles with
        | .error e => .error e
        | .ok cycles2 =>
            .ok (usage ++ [joinNL (List.insertionSort strLe
              (msgs ++ (cycles2.map get_log_messages).flatten))])

/-- The election-cycle collection of the first pass, without the standalone
message side channel. -/
def collectCycles : List (List Str) → Except PyErr (List ElectionCycle)
  | [] => .ok []
  | f :: fs =>
      match find_election_cycles f with
      | .error e => .error e
      | .ok cs =>
          match collectCycles fs with
          | .error e => .error e
          | .ok cs2 => .ok (cs ++ cs2)

/-- The switch sequences the second pass extracts, one list per file. -/
def correlateAll : List (List Str) → Except PyErr (List (List ServerTypeSwitch))
  | [] => .ok []
  | f :: fs =>
      match correlate f with
      | .error e => .error e
      | .ok sws =>
          match correlateAll fs with
          | .error e => .error e
          | .ok rest => .ok (sws :: rest)

/-- The cycle structure `main` builds: cycles collected in file order,
sorted descending by start timestamp, then populated by the second pass. -/
def cyclesAfterAttach (files : List (List Str)) : Except PyErr (List ElectionCycle) :=
  match collectCycles files with
  | .error e => .error e
  | .ok cycles => pass2All files ((List.insertionSort cycLe cycles).reverse)

/-! ### Specification helpers and concrete inputs used by the claims -/

/-- Running maximum-tx switch over a list: the fold computed by the
`max_tx_switch` variable of `get_log_messages` (on a tie the earlier switch
is kept, since the update fires only on a strict increase). -/
def runMaxAux (m : ServerTypeSwitch) (l : List ServerTypeSwitch) : ServerTypeSwitch :=
  l.foldl (fun mx s => if mx.tx_id < s.tx_id then s else mx) m

/-- Declarative description of the `i`-th transition line of a cycle report
(not counting the header line): the transition's own line with its signed
delta against the previous transition's tx id, and the lag warning appended
exactly when the transition's mode is `MASTER` and its tx id lies strictly
below the running maximum as updated from the transitions up to and
including this one; the warning names the difference and the server of the
max-tx switch. -/
def lineSpec (l : List ServerTypeSwitch) (m0 : ServerTypeSwitch) (p0 : Int) (i : Nat) : Str :=
  let sw := (l[i]?).getD maxTxInit
  let prev := if i = 0 then p0 else ((l[i-1]?).getD maxTxInit).tx_id
  let mx := runMaxAux m0 (l.take (i + 1))
  let delta := sw.tx_id - prev
  let deltaStr := if 0 ≤ delta then '+' :: intStr delta else intStr delta
  let base := serverTypeSwitchStr sw ++ (" (").data ++ deltaStr ++ (")").data
  if sw.mode = MASTER ∧ sw.tx_id < mx.tx_id then base ++ warnStr mx sw else base

/-- Example cycle for the lag-warning claim: a slave switch with tx id `120`
followed by a master switch with tx id `80`. -/
def exC1 : ElectionCycle :=
  ⟨⟨2012, 5, 30, 9, 0, 0, 0⟩, ("3").data,
   [⟨⟨2012, 5, 30, 9, 0, 1, 0⟩, ("7").data, SLAVE, 120⟩,
    ⟨⟨2012, 5, 30, 9, 0, 2, 0⟩, ("9").data, MASTER, 80⟩]⟩

/-- Concrete log lines for the pipeline claims. -/
def lnMarker : Str := ("2012-05-30 09:00:00.000-0700: master-notify set to 1\n").data

def lnTx100 : Str :=
  ("2012-05-30 09:00:01.000-0700: Opened x clean empty log, version=1, lastTxId=100\n").data

def lnSw101 : Str := ("2012-05-30 09:00:02.000-0700: Starting[101] as slave\n").data

def lnJunk : Str := ("x\n").data

def lnTx150 : Str :=
  ("2012-05-30 09:00:04.000-0700: Opened x clean empty log, version=1, lastTxId=150\n").data

def lnSw102 : Str := ("2012-05-30 09:00:05.000-0700: Starting[102] as slave\n").data

/-- Log lines for the file-order claim: the two switches of the two files
carry the same timestamp, the tx-id lines and the cycle marker differ. -/
def lnTx150b : Str :=
  ("2012-05-30 09:00:01.500-0700: Opened x clean empty log, version=1, lastTxId=150\n").data

def lnSw102b : Str := ("2012-05-30 09:00:02.000-0700: Starting[102] as slave\n").data

/-- A line whose timestamp prefix does not match `YYYY-MM-DD HH:MM:SS.mmm±HHMM`
(nine fractional digits, no timezone offset) but still parses. -/
def lnOddTs : Str := ("2012-05-30 09:28:56.123456789 blah\n").data

/-- A role-switch line ending in neither `as master` nor `as slave`. -/
def lnBackup : Str := ("2012-05-30 09:28:56.233-0700: Starting[7] as backup\n").data

/-- A shutdown line carrying no timestamp: `SHUTDOWN_REGEX` matches it, so
the first pass calls `parse_timestamp`, whose `int(raw[-5:-2])` reads the
non-numeric text `[3]` and raises `ValueError`. -/
def lnShutdownBad : Str := ("Shutdown[3],\n").data

/-- Decimal digit characters, for rendering well-formed timestamp prefixes
in the timestamp-parser claim. -/
def digitChar (k : Nat) : Char :=
  (['0', '1', '2', '3', '4', '5', '6', '7', '8', '9'].getD k '0')

/-- Two-digit zero-padded rendering (for values below 100). -/
def pad2 (n : Nat) : Str := [digitChar (n / 10), digitChar (n % 10)]

/-- Three-digit zero-padded rendering (for values below 1000). -/
def pad3 (n : Nat) : Str := [digitChar (n / 100), digitChar (n / 10 % 10), digitChar (n % 10)]

/-- Four-digit zero-padded rendering (for values below 10000). -/
def pad4 (n : Nat) : Str :=
  [digitChar (n / 1000), digitChar (n / 100 % 10), digitChar (n / 10 % 10), digitChar (n % 10)]

/-- The offset-free 23-character timestamp text `YYYY-MM-DD HH:MM:SS.mmm`. -/
def mkTsRaw (Y M D h m s ms : Nat) : Str :=
  pad4 Y ++ '-' :: (pad2 M ++ '-' :: (pad2 D ++ ' ' ::
    (pad2 h ++ ':' :: (pad2 m ++ ':' :: (pad2 s ++ '.' :: pad3 ms)))))

/-- A log line beginning with a well-formed 28-character timestamp prefix:
the 23 characters of `mkTsRaw`, a sign, four offset digits, then the rest of
the line. -/
def mkTsLine (Y M D h m s ms : Nat) (sign : Char) (off rest : Str) : Str :=
  (mkTsRaw Y M D h m s ms ++ sign :: off) ++ rest

/-- A role-switch line that becomes master. -/
def lnSwMaster : Str := ("2012-05-30 09:00:06.000-0700: Starting[103] as master\n").data

/-- The switch extracted from `lnSw101` with tx id `100`. -/
def exSw101 : ServerTypeSwitch :=
  ⟨⟨2012, 5, 30, 9, 0, 2, 0⟩, ("101").data, SLAVE, 100⟩

/-- The switch extracted from `lnSw101` when the pending tx id is `7`. -/
def exSw101_tx7 : ServerTypeSwitch :=
  ⟨⟨2012, 5, 30, 9, 0, 2, 0⟩, ("101").data, SLAVE, 7⟩

/-- Two cycle states agree up to the order in which their switches were
attached: same start timestamp, same initiator, switch multiset equal. -/
def cycRel (c c' : ElectionCycle) : Prop :=
  c.timestamp = c'.timestamp ∧ c.started_by = c'.started_by ∧
    c.type_switches.Perm c'.type_switches

/-- Example cycles (descending start timestamps) for the attachment claim. -/
def exCycA : ElectionCycle := ⟨⟨2012, 5, 30, 9, 0, 3, 0⟩, ("2").data, []⟩

def exCycB : ElectionCycle := ⟨⟨2012, 5, 30, 9, 0, 0, 0⟩, ("1").data, []⟩

deriving instance DecidableEq for Except

/-! ### Basic lemmas about the scanning functions -/

theorem reRunF_stable {f : Nat} : ∀ {g : Nat} (ps : List RTok) (s : Str),
    s.length + ps.length < f → s.length + ps.length < g → reRunF f ps s = reRunF g ps s := by
  induction f with
  | zero => intro g ps s hf; omega
  | succ f ihf =>
      intro g ps s hf hg
      match g, hg with
      | g + 1, hg =>
        cases ps with
        | nil => rfl
        | cons t ps =>
            cases t with
            | lit p =>
                simp only [reRunF]
                split
                · exact ihf ps (s.drop p.length) (by simp at hf ⊢; omega) (by simp at hg ⊢; omega)
                · rfl
            | one =>
                cases s with
                | nil => rfl
                | cons c rest =>
                    simp only [reRunF]
                    split
                    · rfl
                    · exact ihf ps rest (by simp at hf ⊢; omega) (by simp at hg ⊢; omega)
            | star =>
                cases s with
                | nil =>
                    simp only [reRunF]
                    exact ihf ps [] (by simp at hf ⊢; omega) (by simp at hg ⊢; omega)
                | cons c rest =>
                    simp only [reRunF]
                    have h1 : reRunF f (.star :: ps) rest = reRunF g (.star :: ps) rest :=
                      ihf _ rest (by simp at hf ⊢; omega) (by simp at hg ⊢; omega)
                    have h2 : reRunF f ps (c :: rest) = reRunF g ps (c :: rest) :=
                      ihf ps (c :: rest) (by simp at hf ⊢; omega) (by simp at hg ⊢; omega)
                    rw [h1, h2]
            | plus =>
                cases s with
                | nil => rfl
                | cons c rest =>
                    simp only [reRunF]
                    split
                    · rfl
                    · exact ihf (.star :: ps) rest (by simp at hf ⊢; omega) (by simp at hg ⊢; omega)
            | grp =>
                cases s with
                | nil => rfl
                | cons c rest =>
                    simp only [reRunF]
                    have h1 : reRunF f (.grp :: ps) rest = reRunF g (.grp :: ps) rest :=
                      ihf _ rest (by simp at hf ⊢; omega) (by simp at hg ⊢; omega)
                    have h2 : reRunF f ps rest = reRunF g ps rest :=
                      ihf ps rest (by simp at hf ⊢; omega) (by simp at hg ⊢; omega)
                    rw [h1, h2]

theorem find_last_committed_tx_length (l : List Str) :
    (find_last_committed_tx l).2.length ≤ l.length := by
  induction l with
  | nil => simp [find_last_committed_tx]
  | cons a rest ih =>
      simp only [find_last_committed_tx]
      cases openedLogCapture a <;> simp <;> omega

theorem find_next_type_switch_length {l : List Str} {tx : Int} {sw : ServerTypeSwitch}
    {rest : List Str} (h : find_next_type_switch l tx = .ok (some (sw, rest))) :
    rest.length < l.length := by
  induction l with
  | nil => simp [find_next_type_switch] at h
  | cons a t ih =>
      simp only [find_next_type_switch] at h
      cases ha : startingAsCapture a with
      | none =>
          rw [ha] at h
          have := ih h
          simp
          omega
      | some d =>
          rw [ha] at h
          cases hts : parse_timestamp a with
          | error e => rw [hts] at h; simp at h
          | ok ts =>
              rw [hts] at h
              by_cases h1 : pyEndsWith a (("as master\n").data) = true <;>
                by_cases h2 : pyEndsWith a (("as slave\n").data) = true <;>
                  simp [h1, h2] at h <;> simp [← h.2] <;> omega

theorem pass2FileF_stable {f : Nat} : ∀ {g : Nat} (l : List Str) (cs : List ElectionCycle),
    l.length < f → l.length < g → pass2FileF f l cs = pass2FileF g l cs := by
  induction f with
  | zero => intro g l cs hf; omega
  | succ f ihf =>
      intro g l cs hf hg
      match g, hg with
      | g + 1, hg =>
        cases l with
        | nil => rfl
        | cons a rest =>
            simp only [pass2FileF]
            cases h : find_next_type_switch (find_last_committed_tx rest).2
                (find_last_committed_tx rest).1 with
            | error e => rfl
            | ok o =>
                cases o with
                | none => rfl
                | some pr =>
                    obtain ⟨sw, rest2⟩ := pr
                    have h1 := find_last_committed_tx_length rest
                    have h2 := find_next_type_switch_length h
                    dsimp only
                    rw [@ihf g rest2 (attachOne cs sw)
                      (by simp only [List.length_cons] at hf; omega)
                      (by simp only [List.length_cons] at hg; omega)]

theorem pass2File_nil (cs : List ElectionCycle) : pass2File [] cs = .ok cs := rfl

theorem pass2File_cons (a : Str) (rest : List Str) (cs : List ElectionCycle) :
    pass2File (a :: rest) cs =
      match find_next_type_switch (find_last_committed_tx rest).2
          (find_last_committed_tx rest).1 with
      | .error e => .error e
      | .ok none => .ok cs
      | .ok (some (sw, rest2)) => pass2File rest2 (attachOne cs sw) := by
  show pass2FileF (rest.length + 2) (a :: rest) cs = _
  simp only [pass2FileF]
  cases h : find_next_type_switch (find_last_committed_tx rest).2
      (find_last_committed_tx rest).1 with
  | error e => rfl
  | ok o =>
      cases o with
      | none => rfl
      | some pr =>
          obtain ⟨sw, rest2⟩ := pr
          have h1 := find_last_committed_tx_length rest
          have h2 := find_next_type_switch_length h
          dsimp only
          rw [@pass2FileF_stable (rest.length + 1) (rest2.length + 1) rest2 (attachOne cs sw)
            (by omega) (by omega)]
          rfl

theorem correlateF_stable {f : Nat} : ∀ {g : Nat} (l : List Str),
    l.length < f → l.length < g → correlateF f l = correlateF g l := by
  induction f with
  | zero => intro g l hf; omega
  | succ f ihf =>
      intro g l hf hg
      match g, hg with
      | g + 1, hg =>
        cases l with
        | nil => rfl
        | cons a rest =>
            simp only [correlateF]
            cases h : find_next_type_switch (find_last_committed_tx rest).2
                (find_last_committed_tx rest).1 with
            | error e => rfl
            | ok o =>
                cases o with
                | none => rfl
                | some pr =>
                    obtain ⟨sw, rest2⟩ := pr
                    have h1 := find_last_committed_tx_length rest
                    have h2 := find_next_type_switch_length h
                    dsimp only
                    rw [@ihf g rest2
                      (by simp only [List.length_cons] at hf; omega)
                      (by simp only [List.length_cons] at hg; omega)]

theorem correlate_nil : correlate [] = .ok [] := rfl

theorem correlate_cons (a : Str) (rest : List Str) :
    correlate (a :: rest) =
      match find_next_type_switch (find_last_committed_tx rest).2
          (find_last_committed_tx rest).1 with
      | .error e => .error e
      | .ok none => .ok []
      | .ok (some (sw, rest2)) =>
          match correlate rest2 with
          | .error e => .error e
          | .ok sws => .ok (sw :: sws) := by
  show correlateF (rest.length + 2) (a :: rest) = _
  simp only [correlateF]
  cases h : find_next_type_switch (find_last_committed_tx rest).2
      (find_last_committed_tx rest).1 with
  | error e => rfl
  | ok o =>
      cases o with
      | none => rfl
      | some pr =>
          obtain ⟨sw, rest2⟩ := pr
          have h1 := find_last_committed_tx_length rest
          have h2 := find_next_type_switch_length h
          dsimp only
          rw [@correlateF_stable (rest.length + 1) (rest2.length + 1) rest2 (by omega) (by omega)]
          rfl


/-! ### Order-theoretic facts about the comparison relations -/

theorem natListLt_asymm : ∀ {a b : List Nat},
    natListLt a b = true → natListLt b a = true → False := by
  intro a
  induction a with
  | nil => intro b h1 h2; cases b <;> simp [natListLt] at h1 h2
  | cons x xs ih =>
      intro b h1 h2
      cases b with
      | nil => simp [natListLt] at h1
      | cons y ys =>
          simp only [natListLt] at h1 h2
          rcases Nat.lt_trichotomy x y with h | h | h
          · rw [if_neg (by omega), if_pos h] at h2
            exact Bool.noConfusion h2
          · subst h
            rw [if_neg (by omega), if_neg (by omega)] at h1 h2
            exact ih h1 h2
          · rw [if_neg (by omega), if_pos h] at h1
            exact Bool.noConfusion h1

theorem natListLt_irrefl (a : List Nat) : natListLt a a = false := by
  cases h : natListLt a a
  · rfl
  · exact absurd (natListLt_asymm h h) (by simp)

theorem natListLt_trans : ∀ {a b c : List Nat},
    natListLt a b = true → natListLt b c = true → natListLt a c = true := by
  intro a
  induction a with
  | nil =>
      intro b c h1 h2
      cases b with
      | nil => simp [natListLt] at h1
      | cons y ys => cases c with
        | nil => simp [natListLt] at h2
        | cons z zs => simp [natListLt]
  | cons x xs ih =>
      intro b c h1 h2
      cases b with
      | nil => simp [natListLt] at h1
      | cons y ys =>
          cases c with
          | nil => simp [natListLt] at h2
          | cons z zs =>
              simp only [natListLt] at h1 h2 ⊢
              rcases Nat.lt_trichotomy x y with hxy | hxy | hxy
              · rcases Nat.lt_trichotomy y z with hyz | hyz | hyz
                · rw [if_pos (by omega)]
                · subst hyz; rw [if_pos (by omega)]
                · rw [if_neg (by omega), if_pos hyz] at h2; exact Bool.noConfusion h2
              · subst hxy
                rw [if_neg (by omega), if_neg (by omega)] at h1
                rcases Nat.lt_trichotomy x z with hyz | hyz | hyz
                · rw [if_pos hyz]
                · subst hyz
                  rw [if_neg (by omega), if_neg (by omega)] at h2 ⊢
                  exact ih h1 h2
                · rw [if_neg (by omega), if_pos hyz] at h2; exact Bool.noConfusion h2
              · rw [if_neg (by omega), if_pos hxy] at h1; exact Bool.noConfusion h1

theorem natListLt_conn : ∀ {a b : List Nat},
    natListLt a b = false → natListLt b a = false → a = b := by
  intro a
  induction a with
  | nil =>
      intro b h1 _
      cases b with
      | nil => rfl
      | cons y ys => simp [natListLt] at h1
  | cons x xs ih =>
      intro b h1 h2
      cases b with
      | nil => simp [natListLt] at h2
      | cons y ys =>
          simp only [natListLt] at h1 h2
          rcases Nat.lt_trichotomy x y with h | h | h
          · rw [if_pos h] at h1; exact Bool.noConfusion h1
          · subst h
            rw [if_neg (by omega), if_neg (by omega)] at h1 h2
            rw [ih h1 h2]
          · rw [if_pos h] at h2; exact Bool.noConfusion h2

theorem dtKey_inj : ∀ {a b : DateTime}, a.key = b.key → a = b := by
  intro a b h
  cases a
  cases b
  simp only [DateTime.key, List.cons.injEq, and_true] at h
  simp_all

theorem dtLe_refl (a : DateTime) : dtLe a a = true := by
  simp [dtLe, natListLt_irrefl]

theorem dtLe_total (a b : DateTime) : dtLe a b = true ∨ dtLe b a = true := by
  simp only [dtLe, Bool.not_eq_true']
  cases h1 : natListLt b.key a.key
  · exact Or.inl rfl
  · cases h2 : natListLt a.key b.key
    · exact Or.inr rfl
    · exact absurd (natListLt_asymm h1 h2) (by simp)

theorem dtLe_trans {a b c : DateTime} (h1 : dtLe a b = true) (h2 : dtLe b c = true) :
    dtLe a c = true := by
  simp only [dtLe, Bool.not_eq_true'] at h1 h2 ⊢
  cases hca : natListLt c.key a.key
  · rfl
  · exfalso
    cases hbc : natListLt b.key c.key
    · have := natListLt_conn h2 hbc
      rw [this] at hca
      rw [hca] at h1
      exact Bool.noConfusion h1
    · have := natListLt_trans hbc hca
      rw [this] at h1
      exact Bool.noConfusion h1

theorem dtLe_antisymm {a b : DateTime} (h1 : dtLe a b = true) (h2 : dtLe b a = true) :
    a = b := by
  simp only [dtLe, Bool.not_eq_true'] at h1 h2
  exact dtKey_inj (natListLt_conn h2 h1)

theorem dtLt_of_not_le {a b : DateTime} (h : ¬ dtLe a b = true) : dtLt b a = true := by
  simp only [dtLe, Bool.not_eq_true', Bool.not_eq_false] at h
  exact h

theorem dtLe_of_lt {a b : DateTime} (h : dtLt a b = true) : dtLe a b = true := by
  simp only [dtLt] at h
  simp only [dtLe, Bool.not_eq_true']
  cases hba : natListLt b.key a.key
  · rfl
  · exact absurd (natListLt_asymm h hba) (by simp)

theorem charToNat_inj : ∀ {a b : Char}, a.toNat = b.toNat → a = b := by
  intro a b h
  exact Char.ext (UInt32.ext h)

theorem strMapKey_inj : ∀ {a b : Str}, a.map Char.toNat = b.map Char.toNat → a = b := by
  intro a
  induction a with
  | nil => intro b h; cases b <;> simp_all
  | cons x xs ih =>
      intro b h
      cases b with
      | nil => simp_all
      | cons y ys =>
          simp only [List.map_cons, List.cons.injEq] at h
          rw [charToNat_inj h.1, ih h.2]

theorem strLe_total (a b : Str) : strLe a b ∨ strLe b a := by
  simp only [strLe, strLtB]
  cases h1 : natListLt (b.map Char.toNat) (a.map Char.toNat)
  · exact Or.inl rfl
  · cases h2 : natListLt (a.map Char.toNat) (b.map Char.toNat)
    · exact Or.inr rfl
    · exact absurd (natListLt_asymm h1 h2) (by simp)

theorem strLe_trans {a b c : Str} (h1 : strLe a b) (h2 : strLe b c) : strLe a c := by
  simp only [strLe, strLtB] at h1 h2 ⊢
  cases hca : natListLt (c.map Char.toNat) (a.map Char.toNat)
  · rfl
  · exfalso
    cases hbc : natListLt (b.map Char.toNat) (c.map Char.toNat)
    · have := natListLt_conn h2 hbc
      rw [this] at hca
      rw [hca] at h1
      exact Bool.noConfusion h1
    · have := natListLt_trans hbc hca
      rw [this] at h1
      exact Bool.noConfusion h1

theorem strLe_antisymm {a b : Str} (h1 : strLe a b) (h2 : strLe b a) : a = b := by
  simp only [strLe, strLtB] at h1 h2
  exact strMapKey_inj (natListLt_conn h2 h1)

instance : IsTotal ServerTypeSwitch swLe := ⟨fun a b => dtLe_total a.timestamp b.timestamp⟩

instance : IsTrans ServerTypeSwitch swLe := ⟨fun _ _ _ h1 h2 => dtLe_trans h1 h2⟩

instance : IsTotal ElectionCycle cycLe := ⟨fun a b => dtLe_total a.timestamp b.timestamp⟩

instance : IsTrans ElectionCycle cycLe := ⟨fun _ _ _ h1 h2 => dtLe_trans h1 h2⟩

instance : IsTotal Str strLe := ⟨strLe_total⟩

instance : IsTrans Str strLe := ⟨fun _ _ _ h1 h2 => strLe_trans h1 h2⟩

instance : IsAntisymm Str strLe := ⟨fun _ _ h1 h2 => strLe_antisymm h1 h2⟩

/-- Two sorted lists that are permutations of each other are equal, provided
the order relation is antisymmetric on the members involved. -/
theorem sorted_perm_eq_of_anti {α : Type} {r : α → α → Prop} :
    ∀ {l₁ l₂ : List α}, (∀ a ∈ l₁, ∀ b ∈ l₁, r a b → r b a → a = b) →
      l₁.Perm l₂ → l₁.Sorted r → l₂.Sorted r → l₁ = l₂ := by
  intro l₁
  induction l₁ with
  | nil =>
      intro l₂ _ hp _ _
      exact hp.nil_eq
  | cons a t ih =>
      intro l₂ anti hp hs₁ hs₂
      cases l₂ with
      | nil => exact absurd hp.symm.nil_eq (by simp)
      | cons b t₂ =>
          have hab : a = b := by
            have hbmem : b ∈ a :: t := hp.mem_iff.mpr (List.mem_cons_self b t₂)
            rcases List.mem_cons.mp hbmem with hba | hbt
            · exact hba.symm
            · have hamem : a ∈ b :: t₂ := hp.mem_iff.mp (List.mem_cons_self a t)
              rcases List.mem_cons.mp hamem with hab2 | hat2
              · exact hab2
              · exact anti a (List.mem_cons_self a t) b hbmem
                  (List.rel_of_sorted_cons hs₁ b hbt)
                  (List.rel_of_sorted_cons hs₂ a hat2)
          subst hab
          have hp2 := hp.cons_inv
          rw [ih (fun x hx y hy => anti x (List.mem_cons_of_mem a hx)
            y (List.mem_cons_of_mem a hy)) hp2 hs₁.of_cons hs₂.of_cons]

/-! ### The cycle report characterised line by line (claim C1) -/

theorem lineSpec_succ (sw : ServerTypeSwitch) (rest : List ServerTypeSwitch)
    (m0 : ServerTypeSwitch) (p0 : Int) (i : Nat) :
    lineSpec (sw :: rest) m0 p0 (i + 1) =
      lineSpec rest (if m0.tx_id < sw.tx_id then sw else m0) sw.tx_id i := by
  cases i with
  | zero => simp [lineSpec, runMaxAux]
  | succ j => simp [lineSpec, runMaxAux, List.take_succ_cons]

theorem cycleLoop_eq : ∀ (l : List ServerTypeSwitch) (m0 : ServerTypeSwitch) (p0 : Int),
    cycleLoop l m0 p0 = (List.range l.length).map (lineSpec l m0 p0) := by
  intro l
  induction l with
  | nil => intro m0 p0; rfl
  | cons sw rest ih =>
      intro m0 p0
      simp only [cycleLoop, List.length_cons, List.range_succ_eq_map, List.map_cons,
        List.map_map]
      refine congrArg₂ List.cons ?_ ?_
      · simp [lineSpec, runMaxAux]
      rw [ih]
      refine List.map_congr_left ?_
      intro i _
      exact (lineSpec_succ sw rest m0 p0 i).symm

/-- Claim C1: walking a cycle's transitions in ascending timestamp order,
every line of the report after the header is the transition's formatted line,
with the lag warning appended exactly when the transition's role is `MASTER`
and the running maximum tx id (updated from the current transition before the
check) strictly exceeds the transition's tx id; the warning states the
difference and names the server of the max-tx switch (all of this is the
content of `lineSpec`).  In particular, for the cycle with a tx-120 switch
followed by a master switch with tx 80, the master's line carries the warning
naming server `7` with magnitude `40`. -/
theorem claim_C1 :
    (∀ (c : ElectionCycle) (i : Nat),
      i < (List.insertionSort swLe c.type_switches).length →
      (get_log_messages c)[i + 1]? =
        some (lineSpec (List.insertionSort swLe c.type_switches) maxTxInit 0 i)) ∧
    get_log_messages exC1 =
      [("2012-05-30 09:00:00 Election started by 3").data,
       ("2012-05-30 09:00:01   7 became slave  Last TX: 120 (+120)").data,
       ("2012-05-30 09:00:02   9 became master Last TX: 80 (-40)   WARN: Master is 40 transactions behind server 7").data] := by
  constructor
  · intro c i h
    unfold get_log_messages
    rw [cycleLoop_eq]
    rw [List.getElem?_cons_succ]
    rw [List.getElem?_map]
    rw [List.getElem?_range h]
    rfl
  · decide

theorem claim_C1_witness :
    1 < (List.insertionSort swLe exC1.type_switches).length ∧
      (get_log_messages exC1)[2]? =
        some (lineSpec (List.insertionSort swLe exC1.type_switches) maxTxInit 0 1) :=
  ⟨by decide, claim_C1.1 exC1 1 (by decide)⟩

/-! ### The tx-id sentinel (claim C4) and the switch extractor (C6, C10) -/

theorem find_last_committed_tx_sentinel : ∀ (l : List Str),
    (find_last_committed_tx l).1 = -1 →
      (find_last_committed_tx l).2 = [] ∧ ∀ x ∈ l, openedLogCapture x = none := by
  intro l
  induction l with
  | nil => intro _; exact ⟨rfl, by simp⟩
  | cons a rest ih =>
      intro h
      cases ha : openedLogCapture a with
      | some d =>
          exfalso
          simp only [find_last_committed_tx, ha] at h
          omega
      | none =>
          simp only [find_last_committed_tx, ha] at h ⊢
          rcases ih h with ⟨h1, h2⟩
          refine ⟨h1, ?_⟩
          intro x hx
          rcases List.mem_cons.mp hx with hxa | hxr
          · rw [hxa]; exact ha
          · exact h2 x hxr

theorem find_last_committed_tx_nonneg_or_sentinel (l : List Str) :
    0 ≤ (find_last_committed_tx l).1 ∨ (find_last_committed_tx l).1 = -1 := by
  induction l with
  | nil => exact Or.inr rfl
  | cons a rest ih =>
      simp only [find_last_committed_tx]
      cases ha : openedLogCapture a with
      | some d => simp
      | none => exact ih

theorem find_next_type_switch_tx_eq : ∀ (l : List Str) (tx : Int) (sw : ServerTypeSwitch)
    (rest2 : List Str), find_next_type_switch l tx = .ok (some (sw, rest2)) →
      sw.tx_id = tx := by
  intro l
  induction l with
  | nil => intro tx sw rest2 h; simp [find_next_type_switch] at h
  | cons a rest ih =>
      intro tx sw rest2 h
      simp only [find_next_type_switch] at h
      cases ha : startingAsCapture a with
      | none => rw [ha] at h; exact ih tx sw rest2 h
      | some d =>
          rw [ha] at h
          cases hts : parse_timestamp a with
          | error e => rw [hts] at h; simp at h
          | ok ts =>
              rw [hts] at h
              by_cases h1 : pyEndsWith a (("as master\n").data) = true <;>
                by_cases h2 : pyEndsWith a (("as slave\n").data) = true <;>
                  simp [h1, h2] at h <;> rw [← h.1]

/-- Claim C4 (amended): the `-1` sentinel of `find_last_committed_tx` is
returned only with the line stream exhausted, and hence every switch the
correlation pass emits carries a non-negative tx id: no report line is ever
produced from the sentinel. -/
theorem claim_C4 :
    (∀ (l : List Str), (find_last_committed_tx l).1 = -1 →
      (find_last_committed_tx l).2 = []) ∧
    (∀ (n : Nat) (l : List Str), l.length ≤ n → ∀ (sws : List ServerTypeSwitch),
      correlate l = .ok sws → ∀ sw ∈ sws, 0 ≤ sw.tx_id) := by
  constructor
  · intro l h
    exact (find_last_committed_tx_sentinel l h).1
  · intro n
    induction n with
    | zero =>
        intro l hl sws hc sw hsw
        cases l with
        | nil =>
            rw [correlate_nil] at hc
            simp only [Except.ok.injEq] at hc
            subst hc
            simp at hsw
        | cons a rest => simp at hl
    | succ n ih =>
        intro l hl sws hc sw hsw
        cases l with
        | nil =>
            rw [correlate_nil] at hc
            simp only [Except.ok.injEq] at hc
            subst hc
            simp at hsw
        | cons a rest =>
            rw [correlate_cons] at hc
            cases h : find_next_type_switch (find_last_committed_tx rest).2
                (find_last_committed_tx rest).1 with
            | error e => rw [h] at hc; simp at hc
            | ok o =>
                rw [h] at hc
                cases o with
                | none =>
                    simp only [Except.ok.injEq] at hc
                    subst hc
                    simp at hsw
                | some pr =>
                    obtain ⟨sw0, rest2⟩ := pr
                    dsimp only at hc
                    cases hc2 : correlate rest2 with
                    | error e => rw [hc2] at hc; simp at hc
                    | ok sws2 =>
                        rw [hc2] at hc
                        simp only [Except.ok.injEq] at hc
                        have htx := find_next_type_switch_tx_eq _ _ _ _ h
                        rcases find_last_committed_tx_nonneg_or_sentinel rest with hnn | hsent
                        · have hlen2 : rest2.length ≤ n := by
                            have := find_next_type_switch_length h
                            have := find_last_committed_tx_length rest
                            simp at hl
                            omega
                          rw [← hc] at hsw
                          rcases List.mem_cons.mp hsw with h0 | hmem
                          · rw [h0, htx]; exact hnn
                          · exact ih rest2 hlen2 sws2 hc2 sw hmem
                        · have := (find_last_committed_tx_sentinel rest hsent).1
                          rw [this] at h
                          simp [find_next_type_switch] at h

/-- Claim C4 counterexample to the rendering clause: a switch whose tx id is
the `-1` sentinel renders the numeric text `-1` in the `Last TX` position,
not a descriptive placeholder. -/
theorem claim_C4_counterexample :
    serverTypeSwitchStr ⟨⟨2012, 5, 30, 9, 0, 2, 0⟩, ("9").data, SLAVE, -1⟩ =
      ("2012-05-30 09:00:02   9 became slave  Last TX: -1").data := by decide

theorem claim_C4_witness :
    (find_last_committed_tx [lnJunk]).1 = -1 ∧ (find_last_committed_tx [lnJunk]).2 = [] ∧
      ([lnJunk, lnTx100, lnSw101].length ≤ 3 ∧
        correlate [lnJunk, lnTx100, lnSw101] = .ok [exSw101] ∧
        0 ≤ exSw101.tx_id) :=
  ⟨by decide, claim_C4.1 [lnJunk] (by decide),
    by decide, by decide,
    claim_C4.2 3 [lnJunk, lnTx100, lnSw101] (by decide) [exSw101] (by decide) exSw101
      (by decide)⟩

theorem not_ends_master_and_slave {l : Str}
    (h1 : pyEndsWith l (("as master\n").data) = true)
    (h2 : pyEndsWith l (("as slave\n").data) = true) : False := by
  simp only [pyEndsWith, List.isSuffixOf_iff_suffix] at h1 h2
  have h3 : (("as slave\n").data) <:+ (("as master\n").data) :=
    List.suffix_of_suffix_length_le h2 h1 (by decide)
  have h4 : (("as slave\n").data).isSuffixOf (("as master\n").data) = true :=
    List.isSuffixOf_iff_suffix.mpr h3
  exact absurd h4 (by decide)

/-- Claim C6: on a line matched by the role-switch pattern with server id
`N`, a line ending in `as master` yields a switch with role `MASTER` and a
line ending in `as slave` yields role `SLAVE`, carrying the captured server
id (the multi-cycle polarity). -/
theorem claim_C6 : ∀ (l : Str) (rest : List Str) (tx : Int) (d : Str) (ts : DateTime),
    startingAsCapture l = some d → parse_timestamp l = .ok ts →
    (pyEndsWith l (("as master\n").data) = true →
      find_next_type_switch (l :: rest) tx = .ok (some (⟨ts, d, MASTER, tx⟩, rest))) ∧
    (pyEndsWith l (("as slave\n").data) = true →
      find_next_type_switch (l :: rest) tx = .ok (some (⟨ts, d, SLAVE, tx⟩, rest))) := by
  intro l rest tx d ts hcap hts
  constructor
  · intro hm
    simp [find_next_type_switch, hcap, hts, hm]
  · intro hs
    have hm : pyEndsWith l (("as master\n").data) = false := by
      cases h : pyEndsWith l (("as master\n").data)
      · rfl
      · exact absurd (not_ends_master_and_slave h hs) (by simp)
    simp [find_next_type_switch, hcap, hts, hm, hs]

theorem claim_C6_witness :
    (startingAsCapture lnSwMaster = some (("103").data) ∧
      pyEndsWith lnSwMaster (("as master\n").data) = true ∧
      find_next_type_switch [lnSwMaster] 7 =
        .ok (some (⟨⟨2012, 5, 30, 9, 0, 6, 0⟩, ("103").data, MASTER, 7⟩, []))) ∧
    (startingAsCapture lnSw101 = some (("101").data) ∧
      pyEndsWith lnSw101 (("as slave\n").data) = true ∧
      find_next_type_switch [lnSw101] 7 =
        .ok (some (⟨⟨2012, 5, 30, 9, 0, 2, 0⟩, ("101").data, SLAVE, 7⟩, []))) :=
  ⟨⟨by decide, by decide,
    (claim_C6 lnSwMaster [] 7 (("103").data) ⟨2012, 5, 30, 9, 0, 6, 0⟩
      (by decide) (by decide)).1 (by decide)⟩,
   ⟨by decide, by decide,
    (claim_C6 lnSw101 [] 7 (("101").data) ⟨2012, 5, 30, 9, 0, 2, 0⟩
      (by decide) (by decide)).2 (by decide)⟩⟩

theorem parse_timestamp_error_value : ∀ (l : Str) (e : PyErr),
    parse_timestamp l = .error e → e = .valueError := by
  intro l e h
  simp only [parse_timestamp] at h
  split at h
  · exact ((Except.error.injEq _ _).mp h).symm
  · simp only [strptime] at h
    split at h
    · exact ((Except.error.injEq _ _).mp h).symm
    · split at h
      · exact absurd h (by simp)
      · exact ((Except.error.injEq _ _).mp h).symm

/-- Claim C10: a line matching the role-switch pattern but ending in neither
`as master` nor `as slave` makes `find_next_type_switch` read the unassigned
local `mode`, raising `NameError`; under the precondition that every matched
line carries one of the two suffixes, the extractor never raises
`NameError`. -/
theorem claim_C10 :
    find_next_type_switch [lnBackup] 5 = .error .nameError ∧
    (∀ (l : List Str) (tx : Int),
      (∀ x ∈ l, startingAsCapture x ≠ none →
        pyEndsWith x (("as master\n").data) = true ∨
          pyEndsWith x (("as slave\n").data) = true) →
      find_next_type_switch l tx ≠ .error .nameError) := by
  constructor
  · decide
  · intro l
    induction l with
    | nil => intro tx _; simp [find_next_type_switch]
    | cons a rest ih =>
        intro tx hpre
        simp only [find_next_type_switch]
        cases ha : startingAsCapture a with
        | none => exact ih tx (fun x hx => hpre x (List.mem_cons_of_mem a hx))
        | some d =>
            cases hts : parse_timestamp a with
            | error e =>
                have he := parse_timestamp_error_value a e hts
                subst he
                simp
            | ok ts =>
                rcases hpre a (List.mem_cons_self a rest) (by rw [ha]; simp) with hm | hs
                · simp [hm]
                · cases h1 : pyEndsWith a (("as master\n").data) <;> simp [hs]

theorem claim_C10_witness :
    (∀ x ∈ [lnSw101], startingAsCapture x ≠ none →
      pyEndsWith x (("as master\n").data) = true ∨
        pyEndsWith x (("as slave\n").data) = true) ∧
    find_next_type_switch [lnSw101] 5 ≠ .error .nameError :=
  ⟨by decide, claim_C10.2 [lnSw101] 5 (by decide)⟩

/-- Claim C7 counterexample: this line's timestamp prefix has nine fractional
digits and no `±HHMM` offset (its first 29 characters contain no sign
character at all), yet `parse_timestamp` succeeds instead of failing. -/
theorem claim_C7_counterexample :
    lnOddTs[23]? = some ('4' : Char) ∧
    parse_timestamp lnOddTs = .ok ⟨2012, 5, 30, 9, 28, 56, 123000⟩ := by decide

/-! ### The correlation pass (claims C3, C5, C9) -/

/-- Claim C3 counterexample: a two-line file whose first line is a tx-id line
and whose second is a role-switch line produces no transition at all (the
driver's outer loop consumes the tx-id line unexamined). -/
theorem claim_C3_counterexample :
    openedLogCapture lnTx100 = some (("100").data) ∧
    startingAsCapture lnSw101 = some (("101").data) ∧
    correlate [lnTx100, lnSw101] = .ok [] := by decide

/-- Claim C3 (amended): the two scans do share one forward cursor and find
the first tx-id line, respectively the first role-switch line, of what they
are given — lines before the match are consumed and never revisited — but
each outer iteration first discards one line unexamined, so the scans start
only after that discarded line. -/
theorem claim_C3_amended :
    (∀ (l : List Str),
      ((find_last_committed_tx l).1 = -1 ∧ (find_last_committed_tx l).2 = [] ∧
        ∀ x ∈ l, openedLogCapture x = none) ∨
      (∃ pre t d, l = pre ++ t :: (find_last_committed_tx l).2 ∧
        (∀ x ∈ pre, openedLogCapture x = none) ∧ openedLogCapture t = some d ∧
        (find_last_committed_tx l).1 = (natOfDigits d : Int))) ∧
    (∀ (l : List Str) (tx : Int) (sw : ServerTypeSwitch) (rest2 : List Str),
      find_next_type_switch l tx = .ok (some (sw, rest2)) →
      ∃ pre t, l = pre ++ t :: rest2 ∧ (∀ x ∈ pre, startingAsCapture x = none) ∧
        startingAsCapture t ≠ none ∧ sw.tx_id = tx) ∧
    (∀ (a b : Str) (rest : List Str), correlate (a :: rest) = correlate (b :: rest)) := by
  refine ⟨?_, ?_, ?_⟩
  · intro l
    induction l with
    | nil => exact Or.inl ⟨rfl, rfl, by simp⟩
    | cons a rest ih =>
        cases ha : openedLogCapture a with
        | some d =>
            refine Or.inr ⟨[], a, d, ?_, by simp, ha, ?_⟩
            · simp [find_last_committed_tx, ha]
            · simp [find_last_committed_tx, ha]
        | none =>
            rcases ih with ⟨h1, h2, h3⟩ | ⟨pre, t, d, heq, hpre, ht, hval⟩
            · refine Or.inl ⟨?_, ?_, ?_⟩
              · simpa [find_last_committed_tx, ha] using h1
              · simpa [find_last_committed_tx, ha] using h2
              · intro x hx
                rcases List.mem_cons.mp hx with rfl | hm
                · exact ha
                · exact h3 x hm
            · refine Or.inr ⟨a :: pre, t, d, ?_, ?_, ht, ?_⟩
              · simp only [find_last_committed_tx, ha]
                rw [List.cons_append]
                rw [← heq]
              · intro x hx
                rcases List.mem_cons.mp hx with rfl | hm
                · exact ha
                · exact hpre x hm
              · simpa [find_last_committed_tx, ha] using hval
  · intro l
    induction l with
    | nil => intro tx sw rest2 h; simp [find_next_type_switch] at h
    | cons a rest ih =>
        intro tx sw rest2 h
        cases ha : startingAsCapture a with
        | none =>
            simp only [find_next_type_switch, ha] at h
            rcases ih tx sw rest2 h with ⟨pre, t, heq, hpre, ht, htx⟩
            refine ⟨a :: pre, t, by rw [List.cons_append, ← heq], ?_, ht, htx⟩
            intro x hx
            rcases List.mem_cons.mp hx with rfl | hm
            · exact ha
            · exact hpre x hm
        | some d =>
            simp only [find_next_type_switch, ha] at h
            cases hts : parse_timestamp a with
            | error e => rw [hts] at h; simp at h
            | ok ts =>
                rw [hts] at h
                have hrest : rest2 = rest ∧ sw.tx_id = tx := by
                  by_cases h1 : pyEndsWith a (("as master\n").data) = true <;>
                    by_cases h2 : pyEndsWith a (("as slave\n").data) = true <;>
                      simp [h1, h2] at h <;>
                        exact ⟨h.2.symm, by rw [← h.1]⟩
                refine ⟨[], a, ?_, by simp, by rw [ha]; simp, hrest.2⟩
                rw [hrest.1]
                simp
  · intro a b rest
    rw [correlate_cons, correlate_cons]

theorem claim_C3_witness :
    find_next_type_switch [lnJunk, lnSw101] 7 = .ok (some (exSw101_tx7, [])) ∧
    (∃ pre t, ([lnJunk, lnSw101] : List Str) = pre ++ t :: ([] : List Str) ∧
      (∀ x ∈ pre, startingAsCapture x = none) ∧
      startingAsCapture t ≠ none ∧ exSw101_tx7.tx_id = 7) ∧
    correlate (lnJunk :: [lnTx100, lnSw101]) = correlate (lnMarker :: [lnTx100, lnSw101]) :=
  ⟨by decide,
   claim_C3_amended.2.1 [lnJunk, lnSw101] 7 exSw101_tx7 [] (by decide),
   claim_C3_amended.2.2 lnJunk lnMarker [lnTx100, lnSw101]⟩

/-- Claim C5: with the cycle list sorted by start timestamp descending, a
switch is attached to the first cycle whose start strictly precedes it —
which is the cycle with the greatest such start — and a switch preceding
every start is attached to no cycle; and `main`'s sorted cycle list is
indeed descending. -/
theorem claim_C5 :
    (∀ (cycles : List ElectionCycle),
      List.Sorted cycGe ((List.insertionSort cycLe cycles).reverse)) ∧
    (∀ (cs : List ElectionCycle) (sw : ServerTypeSwitch), List.Sorted cycGe cs →
      ((∀ c ∈ cs, dtLt c.timestamp sw.timestamp = false) → attachOne cs sw = cs) ∧
      (∀ c0 ∈ cs, dtLt c0.timestamp sw.timestamp = true →
        ∃ pre c1 suf, cs = pre ++ c1 :: suf ∧
          (∀ p ∈ pre, dtLt p.timestamp sw.timestamp = false) ∧
          dtLt c1.timestamp sw.timestamp = true ∧
          attachOne cs sw =
            pre ++ { c1 with type_switches := c1.type_switches ++ [sw] } :: suf ∧
          (∀ c2 ∈ cs, dtLt c2.timestamp sw.timestamp = true →
            dtLe c2.timestamp c1.timestamp = true))) := by
  constructor
  · intro cycles
    have hs : List.Sorted cycLe (List.insertionSort cycLe cycles) :=
      List.sorted_insertionSort cycLe cycles
    unfold List.Sorted at hs ⊢
    rw [List.pairwise_reverse]
    exact hs
  · intro cs sw
    induction cs with
    | nil =>
        intro _
        exact ⟨fun _ => rfl, fun c0 h => absurd h (by simp)⟩
    | cons c cs ih =>
        intro hsorted
        have ihs := ih hsorted.of_cons
        by_cases h : dtLt c.timestamp sw.timestamp = true
        · constructor
          · intro hall
            exact absurd (hall c (List.mem_cons_self c cs)) (by simp [h])
          · intro c0 _ _
            refine ⟨[], c, cs, rfl, by simp, h, by simp [attachOne, h], ?_⟩
            intro c2 hc2 _
            rcases List.mem_cons.mp hc2 with rfl | hmem
            · exact dtLe_refl _
            · exact List.rel_of_sorted_cons hsorted c2 hmem
        · have hf : dtLt c.timestamp sw.timestamp = false := by
            cases hx : dtLt c.timestamp sw.timestamp
            · rfl
            · exact absurd hx h
          constructor
          · intro hall
            simp only [attachOne, hf, Bool.false_eq_true, if_false]
            rw [ihs.1 (fun x hx => hall x (List.mem_cons_of_mem c hx))]
          · intro c0 hc0 hlt
            rcases List.mem_cons.mp hc0 with rfl | hmem
            · exact absurd hlt (by simp [hf])
            · rcases ihs.2 c0 hmem hlt with ⟨pre, c1, suf, heq, hpre, hc1, hatt, hmax⟩
              refine ⟨c :: pre, c1, suf, by rw [List.cons_append, ← heq], ?_, hc1, ?_, ?_⟩
              · intro p hp
                rcases List.mem_cons.mp hp with rfl | hpm
                · exact hf
                · exact hpre p hpm
              · simp only [attachOne, hf, Bool.false_eq_true, if_false]
                rw [hatt]
                simp
              · intro c2 hc2 hlt2
                rcases List.mem_cons.mp hc2 with rfl | hm2
                · exact absurd hlt2 (by simp [hf])
                · exact hmax c2 hm2 hlt2

set_option maxRecDepth 100000 in
theorem claim_C5_witness :
    List.Sorted cycGe [exCycA, exCycB] ∧
    (∃ pre c1 suf, ([exCycA, exCycB] : List ElectionCycle) = pre ++ c1 :: suf ∧
      (∀ p ∈ pre, dtLt p.timestamp exSw101.timestamp = false) ∧
      dtLt c1.timestamp exSw101.timestamp = true ∧
      attachOne [exCycA, exCycB] exSw101 =
        pre ++ { c1 with type_switches := c1.type_switches ++ [exSw101] } :: suf ∧
      (∀ c2 ∈ [exCycA, exCycB], dtLt c2.timestamp exSw101.timestamp = true →
        dtLe c2.timestamp c1.timestamp = true)) :=
  ⟨by decide,
   (claim_C5.2 [exCycA, exCycB] exSw101 (by decide)).2 exCycB (by decide) (by decide)⟩

theorem find_election_cycles_no_marker : ∀ (l : List Str),
    (∀ x ∈ l, electionStartedCapture x = none) → find_election_cycles l = .ok [] := by
  intro l
  induction l with
  | nil => intro _; rfl
  | cons a rest ih =>
      intro h
      have ha := h a (List.mem_cons_self a rest)
      simp only [find_election_cycles, ha]
      exact ih fun x hx => h x (List.mem_cons_of_mem a hx)

set_option maxRecDepth 100000 in
/-- Claim C9 counterexample: the one-line log `Shutdown[3],` has no election
marker and no role switch, yet the run does NOT complete successfully with
the no-cycles message: the shutdown pattern matches the line, the first
pass calls the timestamp parser, and `int` on the slice `[3]` raises
`ValueError` before any cycle check, so nothing is printed. -/
theorem claim_C9_counterexample :
    (∀ x ∈ [lnShutdownBad], electionStartedCapture x = none) ∧
    (∀ x ∈ [lnShutdownBad], startingAsCapture x = none) ∧
    mainOutput [[lnShutdownBad]] = .error PyErr.valueError := by decide

set_option maxRecDepth 100000 in
/-- Claim C9 (amended): with no file arguments `main` prints the usage text,
does not exit early and completes with the no-cycles message; on one file
with no election markers and no role switches a run that completes
successfully prints exactly `"No election cycles found."` and nothing else.
Successful completion is a genuine side condition, not guaranteed by the
marker-free/switch-free hypotheses: a matched general-event line with a
malformed timestamp prefix raises `ValueError` first (see the
counterexample). -/
theorem claim_C9_amended :
    mainOutput [] = .ok [usageMsg, noCyclesMsg] ∧
    (∀ (f : List Str) (out : List Str),
      (∀ x ∈ f, electionStartedCapture x = none) →
      (∀ x ∈ f, startingAsCapture x = none) →
      mainOutput [f] = .ok out → out = [noCyclesMsg]) := by
  constructor
  · decide
  · intro f out h1 _ hm
    have hfc := find_election_cycles_no_marker f h1
    simp only [mainOutput, pass1, hfc] at hm
    cases hg : generalEvents f (("Unknown server").data) with
    | error e => rw [hg] at hm; simp at hm
    | ok ms =>
        rw [hg] at hm
        simp at hm
        exact hm.symm

set_option maxRecDepth 100000 in
theorem claim_C9_witness :
    (∀ x ∈ [lnJunk], electionStartedCapture x = none) ∧
    (∀ x ∈ [lnJunk], startingAsCapture x = none) ∧
    mainOutput [[lnJunk]] = .ok [noCyclesMsg] ∧
    ([noCyclesMsg] : List Str) = [noCyclesMsg] :=
  ⟨by decide, by decide, by decide,
   claim_C9_amended.2 [lnJunk] [noCyclesMsg] (by decide) (by decide) (by decide)⟩

/-! ### One marker, two switches (claim C2) -/

set_option maxRecDepth 400000 in
/-- Claim C2 counterexample: a log consisting of exactly the marker, the
tx-100 line, a switch, the tx-150 line and a second switch (with ascending
timestamps) yields one cycle containing only ONE transition: the outer loop
of the second pass silently consumes the tx-150 line, so the second pairing
never happens. -/
theorem claim_C2_counterexample :
    electionStartedCapture lnMarker = some (("1").data) ∧
    (∀ x ∈ [lnTx100, lnSw101, lnTx150, lnSw102], electionStartedCapture x = none) ∧
    openedLogCapture lnTx100 = some (("100").data) ∧
    startingAsCapture lnSw101 = some (("101").data) ∧
    openedLogCapture lnTx150 = some (("150").data) ∧
    startingAsCapture lnSw102 = some (("102").data) ∧
    cyclesAfterAttach [[lnMarker, lnTx100, lnSw101, lnTx150, lnSw102]] =
      .ok [⟨⟨2012, 5, 30, 9, 0, 0, 0⟩, ("1").data, [exSw101]⟩] := by decide

/-- Claim C2 (amended): the claimed cycle shape does hold provided one
further (unmatched) line separates the first switch from the second tx-id
line, compensating the line the outer loop discards: one cycle, two
transitions in ascending order, printed delta `+50` on the second. -/
theorem claim_C2_amended :
    ∀ (l0 l1 l2 l3 l4 l5 : Str) (sid d1 sid1 d4 sid2 : Str) (t0 t2 t5 : DateTime),
    electionStartedCapture l0 = some sid →
    (∀ x ∈ [l1, l2, l3, l4, l5], electionStartedCapture x = none) →
    parse_timestamp l0 = .ok t0 →
    openedLogCapture l1 = some d1 → (natOfDigits d1 : Int) = 100 →
    startingAsCapture l2 = some sid1 →
    pyEndsWith l2 (("as slave\n").data) = true →
    parse_timestamp l2 = .ok t2 →
    openedLogCapture l4 = some d4 → (natOfDigits d4 : Int) = 150 →
    startingAsCapture l5 = some sid2 →
    pyEndsWith l5 (("as slave\n").data) = true →
    parse_timestamp l5 = .ok t5 →
    dtLt t0 t2 = true → dtLt t0 t5 = true → dtLe t2 t5 = true →
    cyclesAfterAttach [[l0, l1, l2, l3, l4, l5]] =
      .ok [⟨t0, sid, [⟨t2, sid1, SLAVE, 100⟩, ⟨t5, sid2, SLAVE, 150⟩]⟩] ∧
    get_log_messages ⟨t0, sid, [⟨t2, sid1, SLAVE, 100⟩, ⟨t5, sid2, SLAVE, 150⟩]⟩ =
      [headerStr ⟨t0, sid, [⟨t2, sid1, SLAVE, 100⟩, ⟨t5, sid2, SLAVE, 150⟩]⟩,
       serverTypeSwitchStr ⟨t2, sid1, SLAVE, 100⟩ ++ (" (+100)").data,
       serverTypeSwitchStr ⟨t5, sid2, SLAVE, 150⟩ ++ (" (+50)").data] := by
  intro l0 l1 l2 l3 l4 l5 sid d1 sid1 d4 sid2 t0 t2 t5
  intro hm0 hnone hts0 hd1 hv1 hc2 hsl2 hts2 hd4 hv4 hc5 hsl5 hts5 h02 h05 h25
  have hn1 := hnone l1 (by simp)
  have hn2 := hnone l2 (by simp)
  have hn3 := hnone l3 (by simp)
  have hn4 := hnone l4 (by simp)
  have hn5 := hnone l5 (by simp)
  have hm2 : pyEndsWith l2 (("as master\n").data) = false := by
    cases h : pyEndsWith l2 (("as master\n").data)
    · rfl
    · exact absurd (not_ends_master_and_slave h hsl2) (by simp)
  have hm5 : pyEndsWith l5 (("as master\n").data) = false := by
    cases h : pyEndsWith l5 (("as master\n").data)
    · rfl
    · exact absurd (not_ends_master_and_slave h hsl5) (by simp)
  have hcoll : collectCycles [[l0, l1, l2, l3, l4, l5]] = .ok [⟨t0, sid, []⟩] := by
    simp [collectCycles, find_election_cycles, hm0, hts0, hn1, hn2, hn3, hn4, hn5]
  have hsorted : (List.insertionSort cycLe [(⟨t0, sid, []⟩ : ElectionCycle)]).reverse =
      [⟨t0, sid, []⟩] := rfl
  have hswA : find_next_type_switch [l2, l3, l4, l5] 100 =
      .ok (some (⟨t2, sid1, SLAVE, 100⟩, [l3, l4, l5])) := by
    simp [find_next_type_switch, hc2, hts2, hm2, hsl2]
  have hswB : find_next_type_switch [l5] 150 =
      .ok (some (⟨t5, sid2, SLAVE, 150⟩, [])) := by
    simp [find_next_type_switch, hc5, hts5, hm5, hsl5]
  have htx1 : find_last_committed_tx [l1, l2, l3, l4, l5] = (100, [l2, l3, l4, l5]) := by
    simp [find_last_committed_tx, hd1, hv1]
  have htx2 : find_last_committed_tx [l4, l5] = (150, [l5]) := by
    simp [find_last_committed_tx, hd4, hv4]
  have hp2 : pass2File [l0, l1, l2, l3, l4, l5] [⟨t0, sid, []⟩] =
      .ok [⟨t0, sid, [⟨t2, sid1, SLAVE, 100⟩, ⟨t5, sid2, SLAVE, 150⟩]⟩] := by
    rw [pass2File_cons, htx1, hswA]
    dsimp only
    have hat1 : attachOne [⟨t0, sid, []⟩] ⟨t2, sid1, SLAVE, 100⟩ =
        [⟨t0, sid, [⟨t2, sid1, SLAVE, 100⟩]⟩] := by
      simp [attachOne, h02]
    rw [hat1]
    rw [pass2File_cons, htx2, hswB]
    dsimp only
    have hat2 : attachOne [⟨t0, sid, [⟨t2, sid1, SLAVE, 100⟩]⟩] ⟨t5, sid2, SLAVE, 150⟩ =
        [⟨t0, sid, [⟨t2, sid1, SLAVE, 100⟩, ⟨t5, sid2, SLAVE, 150⟩]⟩] := by
      simp [attachOne, h05]
    rw [hat2]
    exact pass2File_nil _
  constructor
  · simp only [cyclesAfterAttach, hcoll]
    rw [hsorted]
    simp only [pass2All]
    rw [hp2]
  · have hins : List.insertionSort swLe
        [(⟨t2, sid1, SLAVE, 100⟩ : ServerTypeSwitch), ⟨t5, sid2, SLAVE, 150⟩] =
        [⟨t2, sid1, SLAVE, 100⟩, ⟨t5, sid2, SLAVE, 150⟩] := by
      simp only [List.insertionSort, List.orderedInsert]
      rw [if_pos ?_]
      exact h25
    unfold get_log_messages
    rw [hins]
    simp only [cycleLoop]
    refine congrArg₂ List.cons rfl (congrArg₂ List.cons ?_ (congrArg₂ List.cons ?_ rfl))
    · have : ((100 : Int) - 0) = 100 := by omega
      simp only [this]
      rw [if_pos (by omega : (0:Int) ≤ 100)]
      rw [if_neg ?_]
      · simp only [List.append_assoc]
        refine congrArg _ ?_
        decide
      · simp only [maxTxInit]
        intro hcon
        rcases hcon with ⟨hmode, _⟩
        exact absurd hmode (by decide)
    · have : ((150 : Int) - 100) = 50 := by omega
      simp only [this]
      rw [if_pos (by omega : (0:Int) ≤ 50)]
      rw [if_neg ?_]
      · simp only [List.append_assoc]
        refine congrArg _ ?_
        decide
      · intro hcon
        rcases hcon with ⟨hmode, _⟩
        exact absurd hmode (by decide)

set_option maxRecDepth 400000 in
theorem claim_C2_witness :
    cyclesAfterAttach [[lnMarker, lnTx100, lnSw101, lnJunk, lnTx150, lnSw102]] =
      .ok [⟨⟨2012, 5, 30, 9, 0, 0, 0⟩, ("1").data,
        [⟨⟨2012, 5, 30, 9, 0, 2, 0⟩, ("101").data, SLAVE, 100⟩,
         ⟨⟨2012, 5, 30, 9, 0, 5, 0⟩, ("102").data, SLAVE, 150⟩]⟩] ∧
    get_log_messages ⟨⟨2012, 5, 30, 9, 0, 0, 0⟩, ("1").data,
        [⟨⟨2012, 5, 30, 9, 0, 2, 0⟩, ("101").data, SLAVE, 100⟩,
         ⟨⟨2012, 5, 30, 9, 0, 5, 0⟩, ("102").data, SLAVE, 150⟩]⟩ =
      [headerStr ⟨⟨2012, 5, 30, 9, 0, 0, 0⟩, ("1").data,
        [⟨⟨2012, 5, 30, 9, 0, 2, 0⟩, ("101").data, SLAVE, 100⟩,
         ⟨⟨2012, 5, 30, 9, 0, 5, 0⟩, ("102").data, SLAVE, 150⟩]⟩,
       serverTypeSwitchStr ⟨⟨2012, 5, 30, 9, 0, 2, 0⟩, ("101").data, SLAVE, 100⟩ ++
         (" (+100)").data,
       serverTypeSwitchStr ⟨⟨2012, 5, 30, 9, 0, 5, 0⟩, ("102").data, SLAVE, 150⟩ ++
         (" (+50)").data] :=
  claim_C2_amended lnMarker lnTx100 lnSw101 lnJunk lnTx150 lnSw102
    (("1").data) (("100").data) (("101").data) (("150").data) (("102").data)
    ⟨2012, 5, 30, 9, 0, 0, 0⟩ ⟨2012, 5, 30, 9, 0, 2, 0⟩ ⟨2012, 5, 30, 9, 0, 5, 0⟩
    (by decide) (by decide) (by decide) (by decide) (by decide) (by decide)
    (by decide) (by decide) (by decide) (by decide) (by decide) (by decide)
    (by decide) (by decide) (by decide) (by decide)

/-! ### The timestamp parser on well-formed prefixes (claim C7) -/

theorem digitChar_isDigit {k : Nat} (h : k ≤ 9) : (digitChar k).isDigit = true := by
  interval_cases k <;> decide

theorem digitChar_dval {k : Nat} (h : k ≤ 9) : (digitChar k).toNat - 48 = k := by
  interval_cases k <;> decide

theorem isDigit_not_space {c : Char} (h : c.isDigit = true) : pySpace c = false := by
  cases hsp : pySpace c
  · rfl
  · exfalso
    simp only [pySpace, Bool.or_eq_true, decide_eq_true_eq] at hsp
    rcases hsp with ((((h1 | h1) | h1) | h1) | h1) | h1 <;> subst h1 <;> simp at h

theorem year_step {Y : Nat} (hY : Y ≤ 9999) (r : Str) :
    yearCands (pad4 Y ++ r) = [(Y, r)] := by
  have h1 : Y / 1000 ≤ 9 := by omega
  have h2 : Y / 100 % 10 ≤ 9 := by omega
  have h3 : Y / 10 % 10 ≤ 9 := by omega
  have h4 : Y % 10 ≤ 9 := by omega
  have hval : natOfDigits [digitChar (Y / 1000), digitChar (Y / 100 % 10),
      digitChar (Y / 10 % 10), digitChar (Y % 10)] = Y := by
    simp only [natOfDigits, List.foldl_cons, List.foldl_nil]
    rw [digitChar_dval h1, digitChar_dval h2, digitChar_dval h3, digitChar_dval h4]
    omega
  simp only [pad4, List.cons_append, List.nil_append, yearCands,
    digitChar_isDigit h1, digitChar_isDigit h2, digitChar_isDigit h3,
    digitChar_isDigit h4, Bool.and_self, if_true]
  rw [hval]

theorem month_step {M : Nat} (h1 : 1 ≤ M) (h2 : M ≤ 12) (r : Str) :
    ∃ tl, monthCands (pad2 M ++ r) = (M, r) :: tl := by
  interval_cases M <;> exact ⟨_, rfl⟩

theorem day_step {D : Nat} (h1 : 1 ≤ D) (h2 : D ≤ 31) (r : Str) :
    ∃ tl, dayCands (pad2 D ++ r) = (D, r) :: tl := by
  interval_cases D <;> exact ⟨_, rfl⟩

theorem hour_step {h : Nat} (h2 : h ≤ 23) (r : Str) :
    ∃ tl, hourCands (pad2 h ++ r) = (h, r) :: tl := by
  interval_cases h <;> exact ⟨_, rfl⟩

theorem minute_step {m : Nat} (h2 : m ≤ 59) (r : Str) :
    ∃ tl, minuteCands (pad2 m ++ r) = (m, r) :: tl := by
  interval_cases m <;> exact ⟨_, rfl⟩

theorem second_step {s : Nat} (h2 : s ≤ 59) (r : Str) :
    ∃ tl, secondCands (pad2 s ++ r) = (s, r) :: tl := by
  interval_cases s <;> exact ⟨_, rfl⟩

theorem f_step {ms : Nat} (h : ms ≤ 999) :
    ∃ tl, fCands (pad3 ms) = (ms * 1000, []) :: tl := by
  have h1 : ms / 100 ≤ 9 := by omega
  have h2 : ms / 10 % 10 ≤ 9 := by omega
  have h3 : ms % 10 ≤ 9 := by omega
  have hval : natOfDigits (pad3 ms) = ms := by
    simp only [pad3, natOfDigits, List.foldl_cons, List.foldl_nil]
    rw [digitChar_dval h1, digitChar_dval h2, digitChar_dval h3]
    omega
  have htw : (pad3 ms).takeWhile Char.isDigit = pad3 ms := by
    simp [pad3, List.takeWhile_cons, digitChar_isDigit h1, digitChar_isDigit h2,
      digitChar_isDigit h3]
  have heq : fCands (pad3 ms) = (ms * 1000, []) ::
      [(natOfDigits ((pad3 ms).take 2) * 10 ^ 4, (pad3 ms).drop 2),
       (natOfDigits ((pad3 ms).take 1) * 10 ^ 5, (pad3 ms).drop 1)] := by
    simp only [fCands, htw]
    rw [show ((pad3 ms).take 6).length = 3 from rfl]
    rw [show List.range 3 = [0, 1, 2] from rfl]
    simp only [List.map_cons, List.map_nil]
    refine congrArg₂ List.cons ?_ rfl
    rw [show (3 : Nat) - 0 = 3 from rfl, show (pad3 ms).take 3 = pad3 ms from rfl, hval]
    rfl
  exact ⟨_, heq⟩

theorem strptimeRaw_mkTsRaw {Y M D h m s ms : Nat}
    (hY : Y ≤ 9999) (hM1 : 1 ≤ M) (hM2 : M ≤ 12) (hD1 : 1 ≤ D) (hD2 : D ≤ 31)
    (hh : h ≤ 23) (hmi : m ≤ 59) (hse : s ≤ 59) (hms : ms ≤ 999) :
    strptimeRaw (mkTsRaw Y M D h m s ms) = some ⟨Y, M, D, h, m, s, ms * 1000⟩ := by
  obtain ⟨tlM, hMc⟩ := month_step hM1 hM2
    ('-' :: (pad2 D ++ ' ' :: (pad2 h ++ ':' :: (pad2 m ++ ':' :: (pad2 s ++ '.' :: pad3 ms)))))
  obtain ⟨tlD, hDc⟩ := day_step hD1 hD2
    (' ' :: (pad2 h ++ ':' :: (pad2 m ++ ':' :: (pad2 s ++ '.' :: pad3 ms))))
  obtain ⟨tlh, hhc⟩ := hour_step hh (':' :: (pad2 m ++ ':' :: (pad2 s ++ '.' :: pad3 ms)))
  obtain ⟨tlm, hmc⟩ := minute_step hmi (':' :: (pad2 s ++ '.' :: pad3 ms))
  obtain ⟨tls, hsc⟩ := second_step hse ('.' :: pad3 ms)
  obtain ⟨tlf, hfc⟩ := f_step hms
  simp only [strptimeRaw, mkTsRaw]
  rw [year_step hY]
  simp only [firstSome]
  rw [hMc]
  simp only [firstSome]
  rw [hDc]
  simp only [firstSome]
  rw [hhc]
  simp only [firstSome]
  rw [hmc]
  simp only [firstSome]
  rw [hsc]
  simp only [firstSome]
  rw [hfc]
  simp only [firstSome]

/-- Claim C7 (amended): `parse_timestamp` slices the first 28 characters
(`len("2012-05-30 09:28:56.233-0700")`), reads `raw[-5:-2]` with `int`
(parsing but discarding the offset hours), drops the trailing five offset
characters and parses the remaining 23 with the fixed format; on every line
beginning with a well-formed prefix this succeeds with exactly the rendered
wall-clock fields — the offset digits never influence the result — and the
parsed values are totally ordered with antisymmetry and transitivity.
Failure is not guaranteed for prefixes outside the documented shape. -/
theorem claim_C7_amended :
    (∀ (Y M D h m s ms : Nat) (sign : Char) (off rest : Str),
      1 ≤ Y → Y ≤ 9999 → 1 ≤ M → M ≤ 12 → 1 ≤ D → D ≤ daysInMonth Y M →
      h ≤ 23 → m ≤ 59 → s ≤ 59 → ms ≤ 999 →
      (sign = '+' ∨ sign = '-') → off.length = 4 → (∀ c ∈ off, c.isDigit = true) →
      parse_timestamp (mkTsLine Y M D h m s ms sign off rest) =
        .ok ⟨Y, M, D, h, m, s, ms * 1000⟩) ∧
    (∀ a b : DateTime, dtLe a b = true ∨ dtLe b a = true) ∧
    (∀ a b : DateTime, dtLe a b = true → dtLe b a = true → a = b) ∧
    (∀ a b c : DateTime, dtLe a b = true → dtLe b c = true → dtLe a c = true) := by
  refine ⟨?_, dtLe_total, fun a b => dtLe_antisymm, fun a b c => dtLe_trans⟩
  intro Y M D h m s ms sign off rest hY1 hY2 hM1 hM2 hD1 hD2 hh hmi hse hms hsign hlen hdig
  have hD31 : D ≤ 31 := by
    have : daysInMonth Y M ≤ 31 := by
      simp only [daysInMonth]
      split
      · split <;> omega
      · split <;> omega
    omega
  obtain ⟨o1, o2, o3, o4, rfl⟩ : ∃ a b c d, off = [a, b, c, d] := by
    cases off with
    | nil => simp at hlen
    | cons a t1 =>
        cases t1 with
        | nil => simp at hlen
        | cons b t2 =>
            cases t2 with
            | nil => simp at hlen
            | cons c t3 =>
                cases t3 with
                | nil => simp at hlen
                | cons d t4 =>
                    cases t4 with
                    | nil => exact ⟨a, b, c, d, rfl⟩
                    | cons e t5 => simp at hlen
  have hlenRaw : (mkTsRaw Y M D h m s ms).length = 23 := by
    simp [mkTsRaw, pad4, pad2, pad3]
  have hlenP : (mkTsRaw Y M D h m s ms ++ sign :: [o1, o2, o3, o4]).length = 28 := by
    simp [hlenRaw]
  have htake : (mkTsRaw Y M D h m s ms ++ sign :: o1 :: o2 :: o3 :: o4 :: rest).take tsPrefixLen
      = mkTsRaw Y M D h m s ms ++ [sign, o1, o2, o3, o4] := by
    rw [show (sign :: o1 :: o2 :: o3 :: o4 :: rest : Str) =
      [sign, o1, o2, o3, o4] ++ rest from rfl]
    rw [show tsPrefixLen = 28 from rfl, ← List.append_assoc]
    exact List.take_left' hlenP
  have hslice : pySliceNeg (mkTsRaw Y M D h m s ms ++ sign :: [o1, o2, o3, o4]) 5 2 =
      [sign, o1, o2] := by
    simp only [pySliceNeg, pySliceNN, hlenP]
    rw [show (28 : Nat) - 2 = 23 + 3 from rfl]
    rw [← hlenRaw, List.take_append]
    rw [show (([sign, o1, o2, o3, o4] : Str).take 3) = [sign, o1, o2] from rfl]
    rw [show (28 : Nat) - 5 = 23 from rfl]
    exact List.drop_left' hlenRaw
  have hdrop : pyDropLast (mkTsRaw Y M D h m s ms ++ sign :: [o1, o2, o3, o4]) 5 =
      mkTsRaw Y M D h m s ms := by
    simp only [pyDropLast, hlenP]
    rw [show (28 : Nat) - 5 = 23 from rfl]
    exact List.take_left' hlenRaw
  have hint : ∃ v, pyInt [sign, o1, o2] = some v := by
    have hs1 : pySpace o1 = false := isDigit_not_space (hdig o1 (by simp))
    have hs2 : pySpace o2 = false := isDigit_not_space (hdig o2 (by simp))
    have hd1 : o1.isDigit = true := hdig o1 (by simp)
    have hd2 : o2.isDigit = true := hdig o2 (by simp)
    simp only [pySpace] at hs1 hs2
    rcases hsign with rfl | rfl <;>
      simp [pyInt, pySpace, List.dropWhile, hs1, hs2, hd1, hd2]
  obtain ⟨v, hv⟩ := hint
  have hvalid : dtValid ⟨Y, M, D, h, m, s, ms * 1000⟩ = true := by
    simp only [dtValid, Bool.and_eq_true, decide_eq_true_eq]
    refine ⟨⟨⟨⟨⟨⟨⟨⟨⟨hY1, hY2⟩, hM1⟩, hM2⟩, hD1⟩, hD2⟩, by omega⟩, by omega⟩, by omega⟩, by omega⟩
  simp only [mkTsLine, parse_timestamp, List.append_assoc, List.cons_append, List.nil_append]
  rw [htake, hslice, hv]
  dsimp only
  rw [hdrop]
  simp only [strptime, strptimeRaw_mkTsRaw hY2 hM1 hM2 hD1 hD31 hh hmi hse hms, hvalid,
    if_true]

theorem claim_C7_witness :
    mkTsLine 2012 5 30 9 28 56 233 '-' (("0700").data) ((": x\n").data) =
      ("2012-05-30 09:28:56.233-0700: x\n").data ∧
    parse_timestamp (mkTsLine 2012 5 30 9 28 56 233 '-' (("0700").data) ((": x\n").data)) =
      .ok ⟨2012, 5, 30, 9, 28, 56, 233000⟩ :=
  ⟨by decide,
   claim_C7_amended.1 2012 5 30 9 28 56 233 '-' (("0700").data) ((": x\n").data)
     (by decide) (by decide) (by decide) (by decide) (by decide) (by decide)
     (by decide) (by decide) (by decide) (by decide) (by decide) (by decide) (by decide)⟩

/-! ### File order and the final report (claim C8) -/

set_option maxRecDepth 1000000 in
/-- Claim C8 counterexample: two files whose switches carry the same
timestamp produce different reports under the two argument orders (the
per-cycle deltas depend on the stable sort's insertion order). -/
theorem claim_C8_counterexample :
    mainOutput [[lnMarker, lnTx100, lnSw101], [lnJunk, lnTx150b, lnSw102b]] ≠
      mainOutput [[lnJunk, lnTx150b, lnSw102b], [lnMarker, lnTx100, lnSw101]] := by decide

theorem perm_append_swap {α : Type} (a b c : List α) :
    (a ++ (b ++ c)).Perm (b ++ (a ++ c)) := by
  have h1 : a ++ (b ++ c) = (a ++ b) ++ c := (List.append_assoc a b c).symm
  have h2 : (b ++ a) ++ c = b ++ (a ++ c) := List.append_assoc b a c
  rw [h1, ← h2]
  exact (List.perm_append_comm).append_right c

theorem pass1_perm : ∀ {files files2 : List (List Str)}, files.Perm files2 →
    ∀ p, pass1 files = .ok p →
    ∃ p2, pass1 files2 = .ok p2 ∧ p.1.Perm p2.1 ∧ p.2.Perm p2.2 := by
  intro files files2 hp
  induction hp with
  | nil => exact fun p h => ⟨p, h, .refl _, .refl _⟩
  | @cons x l₁ l₂ h ih =>
      intro p hx
      simp only [pass1] at hx ⊢
      cases h1 : find_election_cycles x with
      | error e => rw [h1] at hx; exact absurd hx (by simp)
      | ok cs =>
          rw [h1] at hx
          cases h2 : generalEvents x (("Unknown server").data) with
          | error e => rw [h2] at hx; exact absurd hx (by simp)
          | ok ms =>
              rw [h2] at hx
              cases h3 : pass1 l₁ with
              | error e => rw [h3] at hx; exact absurd hx (by simp)
              | ok q =>
                  rw [h3] at hx
                  obtain ⟨q2, hq2, hperm1, hperm2⟩ := ih q h3
                  rw [hq2]
                  obtain ⟨qc, qm⟩ := q
                  obtain ⟨q2c, q2m⟩ := q2
                  simp only [Except.ok.injEq] at hx
                  subst hx
                  exact ⟨(cs ++ q2c, ms ++ q2m), rfl, hperm1.append_left cs,
                    hperm2.append_left ms⟩
  | @swap x y l =>
      intro p hx
      simp only [pass1] at hx ⊢
      cases h1 : find_election_cycles y with
      | error e => rw [h1] at hx; exact absurd hx (by simp)
      | ok csy =>
          rw [h1] at hx
          cases h2 : generalEvents y (("Unknown server").data) with
          | error e => rw [h2] at hx; exact absurd hx (by simp)
          | ok msy =>
              rw [h2] at hx
              cases h3 : find_election_cycles x with
              | error e => rw [h3] at hx; exact absurd hx (by simp)
              | ok csx =>
                  rw [h3] at hx
                  cases h4 : generalEvents x (("Unknown server").data) with
                  | error e => rw [h4] at hx; exact absurd hx (by simp)
                  | ok msx =>
                      rw [h4] at hx
                      cases h5 : pass1 l with
                      | error e => rw [h5] at hx; exact absurd hx (by simp)
                      | ok q =>
                          rw [h5] at hx
                          obtain ⟨qc, qm⟩ := q
                          simp only [Except.ok.injEq] at hx
                          subst hx
                          exact ⟨(csx ++ (csy ++ qc), msx ++ (msy ++ qm)), rfl,
                            perm_append_swap csy csx qc, perm_append_swap msy msx qm⟩
  | trans h₁ h₂ ih₁ ih₂ =>
      intro p hx
      obtain ⟨p2, hp2, ha, hb⟩ := ih₁ p hx
      obtain ⟨p3, hp3, hc, hd⟩ := ih₂ p2 hp2
      exact ⟨p3, hp3, ha.trans hc, hb.trans hd⟩

theorem correlateAll_perm : ∀ {files files2 : List (List Str)}, files.Perm files2 →
    ∀ sls, correlateAll files = .ok sls →
    ∃ sls2, correlateAll files2 = .ok sls2 ∧ sls.flatten.Perm sls2.flatten := by
  intro files files2 hp
  induction hp with
  | nil => exact fun sls h => ⟨sls, h, .refl _⟩
  | @cons x l₁ l₂ h ih =>
      intro sls hx
      simp only [correlateAll] at hx ⊢
      cases h1 : correlate x with
      | error e => rw [h1] at hx; exact absurd hx (by simp)
      | ok sws =>
          rw [h1] at hx
          cases h2 : correlateAll l₁ with
          | error e => rw [h2] at hx; exact absurd hx (by simp)
          | ok rest =>
              rw [h2] at hx
              obtain ⟨rest2, hr2, hperm⟩ := ih rest h2
              rw [hr2]
              simp only [Except.ok.injEq] at hx
              refine ⟨sws :: rest2, rfl, ?_⟩
              rw [← hx]
              simp only [List.flatten_cons]
              exact hperm.append_left sws
  | @swap x y l =>
      intro sls hx
      simp only [correlateAll] at hx ⊢
      cases h1 : correlate y with
      | error e => rw [h1] at hx; exact absurd hx (by simp)
      | ok swsy =>
          rw [h1] at hx
          cases h2 : correlate x with
          | error e => rw [h2] at hx; exact absurd hx (by simp)
          | ok swsx =>
              rw [h2] at hx
              cases h3 : correlateAll l with
              | error e => rw [h3] at hx; exact absurd hx (by simp)
              | ok rest =>
                  rw [h3] at hx
                  simp only [Except.ok.injEq] at hx
                  refine ⟨swsx :: swsy :: rest, rfl, ?_⟩
                  rw [← hx]
                  simp only [List.flatten_cons]
                  exact perm_append_swap swsy swsx rest.flatten
  | trans h₁ h₂ ih₁ ih₂ =>
      intro sls hx
      obtain ⟨s2, hs2, ha⟩ := ih₁ sls hx
      obtain ⟨s3, hs3, hb⟩ := ih₂ s2 hs2
      exact ⟨s3, hs3, ha.trans hb⟩

theorem pass2File_correlate : ∀ (n : Nat) (f : List Str) (cs : List ElectionCycle),
    f.length ≤ n →
    pass2File f cs =
      (match correlate f with
       | .error e => .error e
       | .ok sws => .ok (sws.foldl attachOne cs)) := by
  intro n
  induction n with
  | zero =>
      intro f cs hf
      rw [List.length_eq_zero.mp (Nat.le_zero.mp hf)]
      rfl
  | succ n ih =>
      intro f cs hf
      cases f with
      | nil => rfl
      | cons a rest =>
          rw [pass2File_cons, correlate_cons]
          cases h : find_next_type_switch (find_last_committed_tx rest).2
              (find_last_committed_tx rest).1 with
          | error e => rfl
          | ok o =>
              cases o with
              | none => rfl
              | some pr =>
                  obtain ⟨sw, rest2⟩ := pr
                  dsimp only
                  have hlen : rest2.length ≤ n := by
                    have ha := find_last_committed_tx_length rest
                    have hb := find_next_type_switch_length h
                    simp only [List.length_cons] at hf
                    omega
                  rw [ih rest2 (attachOne cs sw) hlen]
                  cases hc : correlate rest2 with
                  | error e => rfl
                  | ok sws => simp [List.foldl_cons]

theorem pass2All_correlateAll : ∀ (files : List (List Str)) (cs : List ElectionCycle),
    pass2All files cs =
      (match correlateAll files with
       | .error e => .error e
       | .ok sls => .ok (sls.flatten.foldl attachOne cs)) := by
  intro files
  induction files with
  | nil => intro cs; rfl
  | cons f fs ih =>
      intro cs
      simp only [pass2All, correlateAll]
      rw [pass2File_correlate f.length f cs (le_refl _)]
      cases h1 : correlate f with
      | error e => rfl
      | ok sws =>
          dsimp only
          rw [ih (sws.foldl attachOne cs)]
          cases h2 : correlateAll fs with
          | error e => rfl
          | ok sls =>
              dsimp only
              simp [List.flatten_cons, List.foldl_append]

theorem forall₂_cycRel_refl : ∀ (cs : List ElectionCycle), List.Forall₂ cycRel cs cs := by
  intro cs
  induction cs with
  | nil => exact List.Forall₂.nil
  | cons c t ih => exact List.Forall₂.cons ⟨rfl, rfl, .refl _⟩ ih

theorem forall₂_cycRel_trans : ∀ {a b c : List ElectionCycle},
    List.Forall₂ cycRel a b → List.Forall₂ cycRel b c → List.Forall₂ cycRel a c := by
  intro a
  induction a with
  | nil =>
      intro b c h1 h2
      cases h1
      cases h2
      exact List.Forall₂.nil
  | cons x t ih =>
      intro b c h1 h2
      cases h1 with
      | cons hxy h1t =>
          cases h2 with
          | cons hyz h2t =>
              exact List.Forall₂.cons
                ⟨hxy.1.trans hyz.1, hxy.2.1.trans hyz.2.1, hxy.2.2.trans hyz.2.2⟩
                (ih h1t h2t)

theorem attachOne_cycRel : ∀ {cs cs' : List ElectionCycle} (sw : ServerTypeSwitch),
    List.Forall₂ cycRel cs cs' → List.Forall₂ cycRel (attachOne cs sw) (attachOne cs' sw) := by
  intro cs
  induction cs with
  | nil =>
      intro cs' sw h
      cases h
      exact List.Forall₂.nil
  | cons c t ih =>
      intro cs' sw h
      cases h with
      | cons hR hT =>
          rename_i c' t'
          simp only [attachOne]
          rw [← hR.1]
          by_cases hts : dtLt c.timestamp sw.timestamp = true
          · simp only [hts, if_true]
            exact List.Forall₂.cons ⟨rfl, hR.2.1, hR.2.2.append_right [sw]⟩ hT
          · have hf : dtLt c.timestamp sw.timestamp = false := by
              cases hx : dtLt c.timestamp sw.timestamp
              · rfl
              · exact absurd hx hts
            simp only [hf, Bool.false_eq_true, if_false]
            exact List.Forall₂.cons hR (ih sw hT)

theorem attachOne_comm : ∀ (cs : List ElectionCycle) (a b : ServerTypeSwitch),
    List.Forall₂ cycRel (attachOne (attachOne cs a) b) (attachOne (attachOne cs b) a) := by
  intro cs a b
  induction cs with
  | nil => exact List.Forall₂.nil
  | cons c t ih =>
      by_cases ha : dtLt c.timestamp a.timestamp = true <;>
        by_cases hb : dtLt c.timestamp b.timestamp = true
      · simp only [attachOne, ha, hb, if_true]
        refine List.Forall₂.cons ⟨rfl, rfl, ?_⟩ (forall₂_cycRel_refl t)
        rw [List.append_assoc, List.append_assoc]
        exact List.Perm.append_left c.type_switches (List.Perm.swap b a [])
      · have hbf : dtLt c.timestamp b.timestamp = false := by
          cases hx : dtLt c.timestamp b.timestamp
          · rfl
          · exact absurd hx hb
        simp only [attachOne, ha, hbf, if_true, Bool.false_eq_true, if_false]
        exact forall₂_cycRel_refl _
      · have haf : dtLt c.timestamp a.timestamp = false := by
          cases hx : dtLt c.timestamp a.timestamp
          · rfl
          · exact absurd hx ha
        simp only [attachOne, haf, hb, if_true, Bool.false_eq_true, if_false]
        exact forall₂_cycRel_refl _
      · have haf : dtLt c.timestamp a.timestamp = false := by
          cases hx : dtLt c.timestamp a.timestamp
          · rfl
          · exact absurd hx ha
        have hbf : dtLt c.timestamp b.timestamp = false := by
          cases hx : dtLt c.timestamp b.timestamp
          · rfl
          · exact absurd hx hb
        simp only [attachOne, haf, hbf, Bool.false_eq_true, if_false]
        exact List.Forall₂.cons ⟨rfl, rfl, .refl _⟩ ih

theorem foldl_attach_init : ∀ (l : List ServerTypeSwitch) {cs cs' : List ElectionCycle},
    List.Forall₂ cycRel cs cs' →
    List.Forall₂ cycRel (l.foldl attachOne cs) (l.foldl attachOne cs') := by
  intro l
  induction l with
  | nil => exact fun h => h
  | cons x t ih =>
      intro cs cs' h
      simp only [List.foldl_cons]
      exact ih (attachOne_cycRel x h)

theorem foldl_attach_perm : ∀ {sws sws2 : List ServerTypeSwitch}, sws.Perm sws2 →
    ∀ cs, List.Forall₂ cycRel (sws.foldl attachOne cs) (sws2.foldl attachOne cs) := by
  intro sws sws2 hp
  induction hp with
  | nil => exact fun cs => forall₂_cycRel_refl _
  | @cons x l₁ l₂ h ih =>
      intro cs
      simp only [List.foldl_cons]
      exact ih (attachOne cs x)
  | @swap x y l =>
      intro cs
      simp only [List.foldl_cons]
      exact foldl_attach_init l (attachOne_comm cs y x)
  | trans h₁ h₂ ih₁ ih₂ =>
      intro cs
      exact forall₂_cycRel_trans (ih₁ cs) (ih₂ cs)

theorem attach_step : ∀ (cs : List ElectionCycle) (x : ServerTypeSwitch),
    List.Forall₂ (fun c0 c => c.type_switches = c0.type_switches ∨
      c.type_switches = c0.type_switches ++ [x]) cs (attachOne cs x) := by
  intro cs x
  induction cs with
  | nil => exact List.Forall₂.nil
  | cons c t ih =>
      simp only [attachOne]
      by_cases hts : dtLt c.timestamp x.timestamp = true
      · simp only [hts, if_true]
        refine List.Forall₂.cons (Or.inr rfl) ?_
        clear ih
        induction t with
        | nil => exact List.Forall₂.nil
        | cons d u ihu => exact List.Forall₂.cons (Or.inl rfl) ihu
      · have hf : dtLt c.timestamp x.timestamp = false := by
          cases hx : dtLt c.timestamp x.timestamp
          · rfl
          · exact absurd hx hts
        simp only [hf, Bool.false_eq_true, if_false]
        exact List.Forall₂.cons (Or.inl rfl) ih

theorem forall₂_comp {α : Type} {P Q : α → α → Prop} :
    ∀ {a b c : List α}, List.Forall₂ P a b → List.Forall₂ Q b c →
      List.Forall₂ (fun x z => ∃ y, P x y ∧ Q y z) a c := by
  intro a
  induction a with
  | nil =>
      intro b c h1 h2
      cases h1
      cases h2
      exact List.Forall₂.nil
  | cons x t ih =>
      intro b c h1 h2
      cases h1 with
      | cons hxy h1t =>
          cases h2 with
          | cons hyz h2t =>
              rename_i y ty z tz
              exact List.Forall₂.cons ⟨y, hxy, hyz⟩ (ih h1t h2t)

theorem foldl_attach_sublist : ∀ (l : List ServerTypeSwitch) (cs : List ElectionCycle),
    List.Forall₂ (fun c0 c => ∃ σ, σ.Sublist l ∧ c.type_switches = c0.type_switches ++ σ)
      cs (l.foldl attachOne cs) := by
  intro l
  induction l with
  | nil =>
      intro cs
      simp only [List.foldl_nil]
      induction cs with
      | nil => exact List.Forall₂.nil
      | cons c t ih =>
          exact List.Forall₂.cons ⟨[], List.Sublist.refl [], (List.append_nil _).symm⟩ ih
  | cons x t ih =>
      intro cs
      simp only [List.foldl_cons]
      have h1 := attach_step cs x
      have h2 := ih (attachOne cs x)
      refine (forall₂_comp h1 h2).imp ?_
      intro c0 c ⟨y, hy1, σ, hσ1, hσ2⟩
      rcases hy1 with hy | hy
      · exact ⟨σ, List.Sublist.cons x hσ1, by rw [hσ2, hy]⟩
      · refine ⟨x :: σ, List.Sublist.cons₂ x hσ1, ?_⟩
        rw [hσ2, hy, List.append_assoc]
        rfl

theorem forall₂_mem_right {α : Type} {R : α → α → Prop} :
    ∀ {l₁ l₂ : List α}, List.Forall₂ R l₁ l₂ → ∀ b ∈ l₂, ∃ a ∈ l₁, R a b := by
  intro l₁
  induction l₁ with
  | nil =>
      intro l₂ h b hb
      cases h
      exact absurd hb (by simp)
  | cons x t ih =>
      intro l₂ h b hb
      cases h with
      | cons hxy ht =>
          rename_i y ty
          rcases List.mem_cons.mp hb with hb | hb
          · exact ⟨x, List.mem_cons_self x t, hb ▸ hxy⟩
          · obtain ⟨a, ha, hR⟩ := ih ht b hb
            exact ⟨a, List.mem_cons_of_mem x ha, hR⟩

theorem get_log_messages_eq : ∀ (c c' : ElectionCycle), cycRel c c' →
    (c.type_switches.map (fun sw => sw.timestamp)).Nodup →
    get_log_messages c = get_log_messages c' := by
  intro c c' hR hnd
  obtain ⟨h1, h2, h3⟩ := hR
  have hhead : headerStr c = headerStr c' := by
    simp only [headerStr, h1, h2]
  have hsort : List.insertionSort swLe c.type_switches =
      List.insertionSort swLe c'.type_switches := by
    apply sorted_perm_eq_of_anti
    · intro a ha b hb hab hba
      have ha' : a ∈ c.type_switches := (List.mem_insertionSort swLe).mp ha
      have hb' : b ∈ c.type_switches := (List.mem_insertionSort swLe).mp hb
      have hts : a.timestamp = b.timestamp := dtLe_antisymm hab hba
      exact List.inj_on_of_nodup_map hnd ha' hb' hts
    · exact (List.perm_insertionSort swLe _).trans
        (h3.trans (List.perm_insertionSort swLe _).symm)
    · exact List.sorted_insertionSort swLe _
    · exact List.sorted_insertionSort swLe _
  simp only [get_log_messages, hhead, hsort]

theorem map_messages_eq : ∀ {cs cs' : List ElectionCycle},
    List.Forall₂ cycRel cs cs' →
    (∀ c ∈ cs, (c.type_switches.map (fun sw => sw.timestamp)).Nodup) →
    cs.map get_log_messages = cs'.map get_log_messages := by
  intro cs
  induction cs with
  | nil =>
      intro cs' h _
      cases h
      rfl
  | cons c t ih =>
      intro cs' h hnd
      cases h with
      | cons hR ht =>
          rename_i c' t'
          simp only [List.map_cons]
          rw [get_log_messages_eq c c' hR (hnd c (List.mem_cons_self c t)),
            ih ht (fun x hx => hnd x (List.mem_cons_of_mem c hx))]

theorem find_election_cycles_empty_switches : ∀ (f : List Str) (cs : List ElectionCycle),
    find_election_cycles f = .ok cs → ∀ c ∈ cs, c.type_switches = [] := by
  intro f
  induction f with
  | nil =>
      intro cs h c hc
      simp only [find_election_cycles, Except.ok.injEq] at h
      subst h
      exact absurd hc (by simp)
  | cons l rest ih =>
      intro cs h c hc
      simp only [find_election_cycles] at h
      cases h1 : electionStartedCapture l with
      | none =>
          rw [h1] at h
          exact ih cs h c hc
      | some d =>
          rw [h1] at h
          cases h2 : parse_timestamp l with
          | error e => rw [h2] at h; exact absurd h (by simp)
          | ok ts =>
              rw [h2] at h
              cases h3 : find_election_cycles rest with
              | error e => rw [h3] at h; exact absurd h (by simp)
              | ok cs2 =>
                  rw [h3] at h
                  simp only [Except.ok.injEq] at h
                  subst h
                  rcases List.mem_cons.mp hc with hc | hc
                  · rw [hc]
                  · exact ih cs2 h3 c hc

theorem pass1_empty_switches : ∀ (files : List (List Str)) (p : List ElectionCycle × List Str),
    pass1 files = .ok p → ∀ c ∈ p.1, c.type_switches = [] := by
  intro files
  induction files with
  | nil =>
      intro p h c hc
      simp only [pass1, Except.ok.injEq] at h
      subst h
      exact absurd hc (by simp)
  | cons f fs ih =>
      intro p h c hc
      simp only [pass1] at h
      cases h1 : find_election_cycles f with
      | error e => rw [h1] at h; exact absurd h (by simp)
      | ok cs =>
          rw [h1] at h
          cases h2 : generalEvents f (("Unknown server").data) with
          | error e => rw [h2] at h; exact absurd h (by simp)
          | ok ms =>
              rw [h2] at h
              cases h3 : pass1 fs with
              | error e => rw [h3] at h; exact absurd h (by simp)
              | ok q =>
                  rw [h3] at h
                  obtain ⟨qc, qm⟩ := q
                  simp only [Except.ok.injEq] at h
                  subst h
                  simp only at hc
                  rcases List.mem_append.mp hc with hc | hc
                  · exact find_election_cycles_empty_switches f cs h1 c hc
                  · exact ih (qc, qm) h3 c hc

set_option maxRecDepth 100000 in
/-- Claim C8 (amended): permuting the log files on the command line leaves
the final report unchanged, PROVIDED the collected election-cycle start
timestamps are pairwise distinct and the extracted role-switch timestamps
are pairwise distinct.  (The unamended claim fails on timestamp ties, where
Python's stable sorts leak the file argument order into the per-cycle
delta arithmetic; see the counterexample.) -/
theorem claim_C8_amended :
    ∀ (files files2 : List (List Str)) (p : List ElectionCycle × List Str)
      (sls : List (List ServerTypeSwitch)) (out out2 : List Str),
    files.Perm files2 →
    pass1 files = .ok p →
    (p.1.map (fun c => c.timestamp)).Nodup →
    correlateAll files = .ok sls →
    (sls.flatten.map (fun sw => sw.timestamp)).Nodup →
    mainOutput files = .ok out →
    mainOutput files2 = .ok out2 →
    out = out2 := by
  intro files files2 p sls out out2 hp h1 hnd1 hc hnd2 ho ho2
  obtain ⟨pc, pm⟩ := p
  obtain ⟨p2, h1x, hpc, hpm⟩ := pass1_perm hp (pc, pm) h1
  obtain ⟨p2c, p2m⟩ := p2
  simp only at hpc hpm hnd1
  obtain ⟨sls2, hcx, hflat⟩ := correlateAll_perm hp sls hc
  have hlen : files.length = files2.length := hp.length_eq
  have hsortEq : List.insertionSort cycLe pc = List.insertionSort cycLe p2c := by
    apply sorted_perm_eq_of_anti
    · intro a ha b hb hab hba
      have ha' : a ∈ pc := (List.mem_insertionSort cycLe).mp ha
      have hb' : b ∈ pc := (List.mem_insertionSort cycLe).mp hb
      exact List.inj_on_of_nodup_map hnd1 ha' hb' (dtLe_antisymm hab hba)
    · exact (List.perm_insertionSort cycLe _).trans
        (hpc.trans (List.perm_insertionSort cycLe _).symm)
    · exact List.sorted_insertionSort cycLe _
    · exact List.sorted_insertionSort cycLe _
  simp only [mainOutput, h1] at ho
  simp only [mainOutput, h1x, ← hsortEq, ← hlen] at ho2
  by_cases hne : (List.insertionSort cycLe pc).reverse.length = 0
  · rw [if_pos hne] at ho
    rw [if_pos hne] at ho2
    simp only [Except.ok.injEq] at ho ho2
    rw [← ho, ← ho2]
  · rw [if_neg hne] at ho
    rw [if_neg hne] at ho2
    rw [pass2All_correlateAll files ((List.insertionSort cycLe pc).reverse), hc] at ho
    rw [pass2All_correlateAll files2 ((List.insertionSort cycLe pc).reverse), hcx] at ho2
    simp only [Except.ok.injEq] at ho ho2
    have hF : List.Forall₂ cycRel
        (sls.flatten.foldl attachOne ((List.insertionSort cycLe pc).reverse))
        (sls2.flatten.foldl attachOne ((List.insertionSort cycLe pc).reverse)) :=
      foldl_attach_perm hflat _
    have hndEach : ∀ c ∈ sls.flatten.foldl attachOne
        ((List.insertionSort cycLe pc).reverse),
        (c.type_switches.map (fun sw => sw.timestamp)).Nodup := by
      intro c hcmem
      obtain ⟨c0, hc0, σ, hσ1, hσ2⟩ :=
        forall₂_mem_right (foldl_attach_sublist sls.flatten _) c hcmem
      have hc0' : c0.type_switches = [] := by
        have hmem : c0 ∈ pc :=
          (List.mem_insertionSort cycLe).mp (List.mem_reverse.mp hc0)
        exact pass1_empty_switches files (pc, pm) h1 c0 hmem
      rw [hσ2, hc0', List.nil_append]
      exact hnd2.sublist (hσ1.map (fun sw => sw.timestamp))
    have hM : ((sls.flatten.foldl attachOne
          ((List.insertionSort cycLe pc).reverse)).map get_log_messages).flatten =
        ((sls2.flatten.foldl attachOne
          ((List.insertionSort cycLe pc).reverse)).map get_log_messages).flatten :=
      congrArg List.flatten (map_messages_eq hF hndEach)
    rw [← ho, ← ho2, ← hM]
    have hS : List.insertionSort strLe (pm ++ ((sls.flatten.foldl attachOne
          ((List.insertionSort cycLe pc).reverse)).map get_log_messages).flatten) =
        List.insertionSort strLe (p2m ++ ((sls.flatten.foldl attachOne
          ((List.insertionSort cycLe pc).reverse)).map get_log_messages).flatten) :=
      List.eq_of_perm_of_sorted
        ((List.perm_insertionSort strLe _).trans
          ((hpm.append_right _).trans (List.perm_insertionSort strLe _).symm))
        (List.sorted_insertionSort strLe _) (List.sorted_insertionSort strLe _)
    rw [hS]

set_option maxRecDepth 1000000 in
/-- Witness for claim C8 (amended): the two-file input with distinct cycle
and switch timestamps yields the same report under both argument orders. -/
theorem claim_C8_witness :
    ([[lnMarker, lnTx100, lnSw101], [lnJunk, lnTx150, lnSw102]] :
        List (List Str)).Perm
      [[lnJunk, lnTx150, lnSw102], [lnMarker, lnTx100, lnSw101]] ∧
    mainOutput [[lnMarker, lnTx100, lnSw101], [lnJunk, lnTx150, lnSw102]] =
      mainOutput [[lnJunk, lnTx150, lnSw102], [lnMarker, lnTx100, lnSw101]] := by
  refine ⟨List.Perm.swap _ _ _, ?_⟩
  cases ho : mainOutput [[lnMarker, lnTx100, lnSw101], [lnJunk, lnTx150, lnSw102]] with
  | error e => cases e <;> exact absurd ho (by decide)
  | ok out =>
      cases ho2 : mainOutput [[lnJunk, lnTx150, lnSw102], [lnMarker, lnTx100, lnSw101]] with
      | error e => cases e <;> exact absurd ho2 (by decide)
      | ok out2 =>
          rw [claim_C8_amended
            [[lnMarker, lnTx100, lnSw101], [lnJunk, lnTx150, lnSw102]]
            [[lnJunk, lnTx150, lnSw102], [lnMarker, lnTx100, lnSw101]]
            ([⟨⟨2012, 5, 30, 9, 0, 0, 0⟩, ("1").data, []⟩], [])
            [[⟨⟨2012, 5, 30, 9, 0, 2, 0⟩, ("101").data, SLAVE, 100⟩],
             [⟨⟨2012, 5, 30, 9, 0, 5, 0⟩, ("102").data, SLAVE, 150⟩]]
            out out2 (List.Perm.swap _ _ _) (by decide) (by decide) (by decide)
            (by decide) ho ho2]

end ElectionHistory
